import Mathlib

/-!
Shallow embedding of the cleaning / enrichment pipeline of the Web_Crawler
repository (house_price_dataset: clean.ts, components/helpers.ts, merge.ts,
and the refactored cleaning module with getRemovalReason / transformRow).

Strings are modelled as Lean strings (the data is BMP text, where JavaScript
UTF-16 code units coincide with code points); JavaScript numbers are modelled
as exact integer fractions together with explicit NaN / Infinity markers.
-/

namespace WC

/-! ## JavaScript primitive helpers -/

/-- Whitespace recognised by JavaScript trim and by the regex class for
whitespace, restricted to the characters that can occur in this data set
(ASCII whitespace, NBSP and the ideographic space). -/
def isWs (c : Char) : Bool :=
  c == ' ' || c == '\t' || c == '\n' || c == '\r' ||
  c == '\x0b' || c == '\x0c' || c == ' ' || c == '　'

def jsTrimL (cs : List Char) : List Char := cs.dropWhile isWs

def jsTrimR (cs : List Char) : List Char := (cs.reverse.dropWhile isWs).reverse

def jsTrimList (cs : List Char) : List Char := jsTrimR (jsTrimL cs)

/-- JavaScript String.prototype.trim. -/
def trimS (s : String) : String := ⟨jsTrimList s.data⟩

/-- The digit character for a value below ten. -/
def dChar (n : Nat) : Char := Char.ofNat (48 + n)

/-- Numeric value of a decimal digit character. -/
def dVal (c : Char) : Nat := c.toNat - 48

/-- Value of a list of decimal digit characters (most significant first). -/
def toNatDigits (cs : List Char) : Nat := cs.foldl (fun a c => 10 * a + dVal c) 0

/-- A finite JavaScript number value, kept as an unnormalised exact fraction
(the denominator is positive; in this pipeline it is always a power of ten).
All operations are plain integer arithmetic, so terms reduce in the kernel. -/
structure JQ where
  num : ℤ
  den : ℕ
deriving DecidableEq, Repr

instance (n : ℕ) : OfNat JQ n := ⟨⟨(n : ℤ), 1⟩⟩

def JQ.ofInt (z : ℤ) : JQ := ⟨z, 1⟩

def JQ.neg (a : JQ) : JQ := ⟨-a.num, a.den⟩

/-- Value equality of two fractions: the JavaScript strict equality of the
numbers they denote. -/
def jqEq (a b : JQ) : Bool := a.num * (b.den : ℤ) = b.num * (a.den : ℤ)

/-- Less-than on fractions with positive denominators. -/
def jqLt (a b : JQ) : Bool := a.num * (b.den : ℤ) < b.num * (a.den : ℤ)

/-- Scaling by a power of ten (the exponent part of a numeric literal). -/
def JQ.scale10 (a : JQ) (e : ℤ) : JQ :=
  if 0 ≤ e then ⟨a.num * 10 ^ e.toNat, a.den⟩ else ⟨a.num, a.den * 10 ^ (-e).toNat⟩

/-- A JavaScript number: NaN, plus or minus infinity, or a finite value. -/
inductive JsNum where
  | nan : JsNum
  | inf : JsNum
  | ninf : JsNum
  | fin (q : JQ) : JsNum
deriving DecidableEq, Repr

/-- A JavaScript value stored in a record: a string, a number or undefined. -/
inductive JsVal where
  | str (s : String) : JsVal
  | num (x : JsNum) : JsVal
  | undef : JsVal
deriving DecidableEq, Repr

/-! ## Numeric string parsing (Number coercion and parseFloat) -/

/-- Value of an integer-part/fraction-part digit pair, as a fraction over
the power of ten given by the fraction length. -/
def ratOfParts (intD fracD : List Char) : JQ :=
  ⟨((toNatDigits intD * 10 ^ fracD.length + toNatDigits fracD : ℕ) : ℤ),
   10 ^ fracD.length⟩

/-- Parse the exponent part of a numeric literal (e or E, an optional sign and
at least one digit); returns the exponent and the rest.  Fails when the digits
are missing. -/
def parseExp (cs : List Char) : Option (ℤ × List Char) :=
  match cs with
  | c :: rest =>
    if c == 'e' || c == 'E' then
      let (sgn, rest2) : ℤ × List Char :=
        match rest with
        | '+' :: r => (1, r)
        | '-' :: r => (-1, r)
        | r => (1, r)
      let ds := rest2.takeWhile Char.isDigit
      if ds.isEmpty then none
      else some (sgn * (toNatDigits ds : ℤ), rest2.drop ds.length)
    else none
  | [] => none

/-- Parse an unsigned decimal literal prefix (digits, optional dot and
fraction, optional exponent); returns the value and the unconsumed rest.
Fails when no digits are present at all. -/
def parseDecPrefix (cs : List Char) : Option (JQ × List Char) :=
  let intD := cs.takeWhile Char.isDigit
  let r1 := cs.drop intD.length
  let (fracD, r2) : List Char × List Char :=
    match r1 with
    | '.' :: r => (r.takeWhile Char.isDigit, r.drop (r.takeWhile Char.isDigit).length)
    | _ => ([], r1)
  if intD.isEmpty && fracD.isEmpty then none
  else
    let base := ratOfParts intD fracD
    match parseExp r2 with
    | some (e, r3) => some (base.scale10 e, r3)
    | none => some (base, r2)

def hexVal (c : Char) : Nat :=
  if c.isDigit then dVal c
  else if 'a' ≤ c && c ≤ 'f' then c.toNat - 87
  else c.toNat - 55

def isHexDigit (c : Char) : Bool :=
  c.isDigit || ('a' ≤ c && c ≤ 'f') || ('A' ≤ c && c ≤ 'F')

def isOctDigit (c : Char) : Bool := '0' ≤ c && c ≤ '7'

def isBinDigit (c : Char) : Bool := c == '0' || c == '1'

def digitsVal (base : Nat) (cs : List Char) : Nat :=
  cs.foldl (fun a c => base * a + hexVal c) 0

/-- JavaScript Number(string) (also the unary plus coercion) on an already
trimmed, non-empty character list: the whole list must form a numeric
literal, otherwise the result is NaN. -/
def jsNumCore (cs : List Char) : JsNum :=
  match cs with
  | '0' :: x :: rest =>
    if (x == 'x' || x == 'X') && !rest.isEmpty && rest.all isHexDigit then
      .fin ⟨(digitsVal 16 rest : ℕ), 1⟩
    else if (x == 'o' || x == 'O') && !rest.isEmpty && rest.all isOctDigit then
      .fin ⟨(digitsVal 8 rest : ℕ), 1⟩
    else if (x == 'b' || x == 'B') && !rest.isEmpty && rest.all isBinDigit then
      .fin ⟨(digitsVal 2 rest : ℕ), 1⟩
    else jsNumDec cs
  | _ => jsNumDec cs
where
  /-- Signed decimal or Infinity form; must consume the whole list. -/
  jsNumDec (cs : List Char) : JsNum :=
    let (neg, body) : Bool × List Char :=
      match cs with
      | '+' :: r => (false, r)
      | '-' :: r => (true, r)
      | r => (false, r)
    if body = ("Infinity").data then (if neg then .ninf else .inf)
    else
      match parseDecPrefix body with
      | some (q, rest) =>
        if rest.isEmpty then .fin (if neg then q.neg else q) else .nan
      | none => .nan

/-- JavaScript Number(string): trims, the empty string is zero, otherwise the
whole remainder must be a numeric literal. -/
def jsNumber (s : String) : JsNum :=
  let t := jsTrimList s.data
  if t.isEmpty then .fin 0 else jsNumCore t

/-- JavaScript unary plus applied to a possibly missing record field
(an absent field is undefined and coerces to NaN). -/
def jsPlus (v : Option String) : JsNum :=
  match v with
  | none => .nan
  | some s => jsNumber s

/-- JavaScript parseFloat: skips leading whitespace, reads the longest valid
decimal-literal (or Infinity) prefix; NaN when there is none. -/
def parseFloatJs (s : String) : JsNum :=
  let cs := jsTrimL s.data
  let (neg, body) : Bool × List Char :=
    match cs with
    | '+' :: r => (false, r)
    | '-' :: r => (true, r)
    | r => (false, r)
  if ("Infinity").data.isPrefixOf body then (if neg then .ninf else .inf)
  else
    match parseDecPrefix body with
    | some (q, _) => .fin (if neg then q.neg else q)
    | none => .nan

/-- toNum from the source: for a string, strip every comma, parseFloat, and
return the value only when it is finite. -/
def toNum (v : Option String) : Option JQ :=
  match v with
  | none => none
  | some s =>
    match parseFloatJs ⟨s.data.filter (fun c => !(c == ','))⟩ with
    | .fin q => some q
    | _ => none

/-- The comparison n greater-than q used by the layout guards: false for NaN
and minus infinity, true for plus infinity. -/
def jsGT (x : JsNum) (q : JQ) : Bool :=
  match x with
  | .fin v => jqLt q v
  | .inf => true
  | _ => false

/-! ## Calendar dates and the ROC date parser (parseROC in helpers.ts) -/

structure Date where
  year : Nat
  month : Nat
  day : Nat
deriving DecidableEq, Repr

def isLeap (y : Nat) : Bool := (y % 4 == 0 && y % 100 != 0) || y % 400 == 0

def daysInMonth (y m : Nat) : Nat :=
  if m = 2 then (if isLeap y then 29 else 28)
  else if m = 4 ∨ m = 6 ∨ m = 9 ∨ m = 11 then 30
  else 31

/-- Calendar validity, matching the strict round-trip check performed by the
dayjs parser with format YYYY-M-D. -/
def validDate (y m d : Nat) : Bool :=
  decide (1 ≤ m) && decide (m ≤ 12) && decide (1 ≤ d) && decide (d ≤ daysInMonth y m)

def isSep1 (c : Char) : Bool := c == '.' || c == '/' || c == '年' || c == '-'

def isSep2 (c : Char) : Bool := c == '.' || c == '/' || c == '月' || c == '-'

/-- Take exactly k leading decimal digits, returning their value and the rest. -/
def sliceNat (cs : List Char) (k : Nat) : Option (Nat × List Char) :=
  let pre := cs.take k
  if pre.length = k ∧ pre.all Char.isDigit then some (toNatDigits pre, cs.drop k)
  else none

/-- One attempt of the separator regex at the current position, with the
greedy backtracking of the quantifiers: one-to-three digits, a separator,
one-or-two digits, a separator, one-or-two digits. -/
def matchSepAt (cs : List Char) : Option (Nat × Nat × Nat) :=
  [3, 2, 1].findSome? fun k1 =>
    match sliceNat cs k1 with
    | none => none
    | some (y, r1) =>
      match r1 with
      | [] => none
      | c :: r2 =>
        if isSep1 c then
          [2, 1].findSome? fun k2 =>
            match sliceNat r2 k2 with
            | none => none
            | some (m, r3) =>
              match r3 with
              | [] => none
              | c2 :: r4 =>
                if isSep2 c2 then
                  [2, 1].findSome? fun k3 =>
                    match sliceNat r4 k3 with
                    | none => none
                    | some (d, _) => some (y, m, d)
                else none
        else none

/-- Leftmost unanchored search for the separator date pattern. -/
def searchSep : List Char → Option (Nat × Nat × Nat)
  | [] => none
  | c :: cs =>
    match matchSepAt (c :: cs) with
    | some r => some r
    | none => searchSep cs

/-- parseROC from helpers.ts: trim; empty or a case-insensitive nan token is
unparsable; a trailing dot-zero suffix is stripped; a six-or-seven digit
string is cut as offset-year / month / day (six digits are left-padded with
one zero); otherwise the first separator form found anywhere in the string is
used; 1911 is added to the offset year and the result is validated against
the real calendar. -/
def parseROCl (raw : List Char) : Option Date :=
  let s := jsTrimList raw
  if s.isEmpty then none
  else if s.map Char.toLower = ("nan").data then none
  else
    let s := if [('.' : Char), '0'].isSuffixOf s then s.dropLast.dropLast else s
    if (s.length = 6 ∨ s.length = 7) ∧ s.all Char.isDigit then
      let s7 := if s.length = 6 then '0' :: s else s
      let yyy := toNatDigits (s7.take 3)
      let mm := toNatDigits ((s7.drop 3).take 2)
      let dd := toNatDigits (s7.drop 5)
      if validDate (yyy + 1911) mm dd then some ⟨yyy + 1911, mm, dd⟩ else none
    else
      match searchSep s with
      | none => none
      | some (y, m, d) =>
        if validDate (y + 1911) m d then some ⟨y + 1911, m, d⟩ else none

def parseROC (s : String) : Option Date := parseROCl s.data

/-- Decimal digit list of a natural number (no padding). -/
def natDigits (n : Nat) : List Char := Nat.toDigits 10 n

/-- Two-digit zero-padded rendering, as produced by the dayjs format MM / DD. -/
def pad2 (n : Nat) : List Char := if n < 10 then ['0', dChar n] else natDigits n

/-- rocToISO: format a parsed date as YYYY-MM-DD; null when unparsable. -/
def rocToISO (s : String) : Option String :=
  (parseROC s).map fun d =>
    ⟨natDigits d.year ++ '-' :: pad2 d.month ++ '-' :: pad2 d.day⟩

/-- Day number of a civil date (days since the Unix epoch), used to model the
millisecond timestamps that periodToDays subtracts. -/
def civilDays (d : Date) : ℤ :=
  let y : ℤ := (d.year : ℤ) - (if d.month ≤ 2 then 1 else 0)
  let era : ℤ := (if 0 ≤ y then y else y - 399) / 400
  let yoe : ℤ := y - era * 400
  let mp : ℤ := ((d.month : ℤ) + 9) % 12
  let doy : ℤ := (153 * mp + 2) / 5 + (d.day : ℤ) - 1
  let doe : ℤ := yoe * 365 + yoe / 4 - yoe / 100 + doy
  era * 146097 + doe - 719468

/-- Result of periodToDays: null, NaN (when the range has no tilde so the
second destructured element is undefined yet passes the non-null test), or a
whole number of days. -/
inductive PDays where
  | null : PDays
  | nan : PDays
  | days (n : ℤ) : PDays
deriving DecidableEq, Repr

/-- periodToDays from helpers.ts: split on the tilde, parse both sides,
return the rounded day difference; null when a parsed side is null, NaN when
the second side is missing altogether. -/
def periodToDays (s : String) : PDays :=
  let parts := s.data.splitOn '~'
  match parts.head? with
  | none => .null
  | some p1 =>
    match parseROCl p1 with
    | none => .null
    | some d1 =>
      match parts.get? 1 with
      | none => .nan
      | some p2 =>
        match parseROCl p2 with
        | none => .null
        | some d2 => .days (civilDays d2 - civilDays d1)

/-- Whole-year difference used for the house age: dayjs diff with the year
unit between two calendar dates (later minus earlier, truncated to whole
years by comparing month and day). -/
def diffYears (a b : Date) : ℤ :=
  ((a.year : ℤ) - (b.year : ℤ)) -
    (if a.month < b.month ∨ (a.month = b.month ∧ a.day < b.day) then 1 else 0)

/-! ## Substring matching and the categorical classifiers -/

/-- Occurrence of a pattern as a contiguous sublist, by scanning every
suffix. -/
def isInfixL (pat : List Char) : List Char → Bool
  | [] => pat.isEmpty
  | c :: cs => pat.isPrefixOf (c :: cs) || isInfixL pat cs

/-- JavaScript String.prototype.includes: pattern occurs as a contiguous
substring (the empty pattern occurs in every string). -/
def containsSub (s pat : String) : Bool := isInfixL pat.data s.data

/-- First category of an ordered vocabulary whose patterns contain a
substring match, with a default. -/
def firstGroup (groups : List (String × List String)) (s dflt : String) : String :=
  match groups.find? (fun g => g.2.any (fun u => containsSub s u)) with
  | some g => g.1
  | none => dflt

/-- The ordered usage vocabulary of purposeClassify. -/
def mainUsage : List (String × List String) :=
  [(("住宅類"), ["住宅", "住家用", "集合住宅", "多戶住宅", "公寓"]),
   (("住商混合"), ["住商", "住工", "住宅、店舖"]),
   (("商業用途"), ["商業", "辦公", "事務所", "零售業", "店舖"]),
   (("工業用途"), ["工業", "工廠", "廠房", "倉儲"]),
   (("特殊用途"), ["防空", "醫", "學", "福利", "宿舍", "交通"]),
   (("未知"), [""]),
   (("其他"), ["其他"])]

/-- purposeClassify from helpers.ts. -/
def purposeClassify (purpose : String) : String :=
  firstGroup mainUsage purpose ("NA")

/-- The ordered material vocabulary of buildingMaterialClassify. -/
def buildingType : List (String × List String) :=
  [(("鋼筋混凝土造類"),
    ["鋼筋混凝土", "ＲＣ", "鋼骨鋼筋混凝土", "鋼骨混凝土", "鋼骨ＲＣ造"]),
   (("加強磚造類"),
    ["加強磚造", "磚造", "磚石造", "加強石造", "石造", "土磚石混合造"]),
   (("鋼骨類"), ["鋼骨造", "鋼骨", "鋼構造"]),
   (("木造類"), ["木", "竹"])]

/-- buildingMaterialClassify from helpers.ts. -/
def buildingMaterialClassify (material : String) : String :=
  firstGroup buildingType material ("NA")

/-- houseAgeClassify from helpers.ts. -/
def houseAgeClassify (age : ℤ) : String :=
  if age < 0 then ("NA")
  else if age ≤ 5 then ("新屋")
  else if age ≤ 10 then ("5-10年")
  else if age ≤ 20 then ("10-20年")
  else if age ≤ 30 then ("20-30年")
  else if age ≤ 40 then ("30-40年")
  else if age > 40 then ("40年以上")
  else ("NA")

/-- The Chinese numeral digit map of floorToNumber. -/
def digitMap (c : Char) : Option ℤ :=
  if c = '零' then some 0
  else if c = '一' then some 1
  else if c = '二' then some 2
  else if c = '兩' then some 2
  else if c = '三' then some 3
  else if c = '四' then some 4
  else if c = '五' then some 5
  else if c = '六' then some 6
  else if c = '七' then some 7
  else if c = '八' then some 8
  else if c = '九' then some 9
  else none

/-- floorToNumber from helpers.ts: strip a trailing floor-unit character,
recognise a basement prefix as negation, then read a 0-99 Chinese numeral;
any unrecognised character position defaults (single character or whole
remainder to 0, a tens multiplier to 1). -/
def floorToNumber (s : String) : ℤ :=
  let cs := s.data
  let cs := if cs.getLast? = some '層' then cs.dropLast else cs
  let neg := [('地' : Char), '下'].isPrefixOf cs
  let cs := if neg then cs.drop 2 else cs
  let r : ℤ :=
    match cs with
    | [c] => (digitMap c).getD 0
    | _ =>
      match cs.findIdx? (fun c => c == '十') with
      | some i =>
        let tens : ℤ := if i = 0 then 1 else ((cs.get? (i - 1)).bind digitMap).getD 1
        let ones : ℤ :=
          match (cs.get? (i + 1)).bind digitMap with
          | some v => v
          | none => 0
        tens * 10 + ones
      | none => 0
  if neg then -r else r

/-- floorChange from helpers.ts: whole-building literals, then bucket the
converted floor number. -/
def floorChange (s : String) : String :=
  if s = ("全") ∨ s = ("整棟") ∨ s = ("整層") then ("透天厝")
  else
    let floor := floorToNumber s
    if floor < 0 then ("地下室")
    else if floor ≤ 10 then ("低樓層")
    else if floor ≤ 20 then ("中樓層")
    else if floor > 20 then ("高樓層")
    else ("NA")

/-! ## parseTransRatio (helpers.ts labeled scan with positional fallback) -/

/-- Match a greedy numeric token (digits with an optional dot-digits part),
returning its rational value and the rest. -/
def matchNumTok (cs : List Char) : Option (JQ × List Char) :=
  let ds := cs.takeWhile Char.isDigit
  if ds.isEmpty then none
  else
    let r := cs.drop ds.length
    match r with
    | '.' :: r2 =>
      let fs := r2.takeWhile Char.isDigit
      if fs.isEmpty then some (⟨(toNatDigits ds : ℕ), 1⟩, r)
      else some (ratOfParts ds fs, r2.drop fs.length)
    | _ => some (⟨(toNatDigits ds : ℕ), 1⟩, r)

/-- Match one labeled alternative: the label characters, optional whitespace,
an optional full- or half-width colon, optional whitespace, and a number. -/
def matchLabeled (label : List Char) (cs : List Char) : Option (JQ × List Char) :=
  if label.isPrefixOf cs then
    let r1 := (cs.drop label.length).dropWhile isWs
    let r2 :=
      match r1 with
      | ':' :: r => r
      | '：' :: r => r
      | r => r
    matchNumTok (r2.dropWhile isWs)
  else none

/-- The repeated global exec loop over the three labeled alternatives: at
each position the land, building and parking branches are tried in order;
on a match the scan resumes after it and the captured value overwrites the
corresponding component. -/
def pairsLoop (fuel : Nat) (cs : List Char) (l b p : JQ) : JQ × JQ × JQ :=
  match fuel with
  | 0 => (l, b, p)
  | fuel + 1 =>
    match cs with
    | [] => (l, b, p)
    | c :: rest =>
      match matchLabeled ("土地").data (c :: rest) with
      | some (v, r) => pairsLoop fuel r v b p
      | none =>
        match matchLabeled ("建物").data (c :: rest) with
        | some (v, r) => pairsLoop fuel r l v p
        | none =>
          match matchLabeled ("車位").data (c :: rest) with
          | some (v, r) => pairsLoop fuel r l b v
          | none => pairsLoop fuel rest l b p

/-- All numeric tokens of the string, left to right (the global match of the
fallback strategy). -/
def numTokens (fuel : Nat) (cs : List Char) : List JQ :=
  match fuel with
  | 0 => []
  | fuel + 1 =>
    match cs with
    | [] => []
    | c :: rest =>
      match matchNumTok (c :: rest) with
      | some (v, r) => v :: numTokens fuel r
      | none => numTokens fuel rest

structure Ratio where
  land : JQ
  building : JQ
  parking : JQ
deriving DecidableEq, Repr

/-- The labeled scan of parseTransRatio on its own. -/
def labeledScan (s : String) : JQ × JQ × JQ := pairsLoop s.data.length s.data 0 0 0

/-- parseTransRatio from helpers.ts: labeled scan first; when all three
labeled results are zero and at least three numeric tokens exist, the first
three tokens are assigned positionally. -/
def parseTransRatio (raw : Option String) : Ratio :=
  match raw with
  | none => ⟨0, 0, 0⟩
  | some s =>
    if s = "" then ⟨0, 0, 0⟩
    else
      let (l, b, p) := labeledScan s
      if jqEq l 0 && jqEq b 0 && jqEq p 0 then
        match numTokens s.data.length s.data with
        | n1 :: n2 :: n3 :: _ => ⟨n1, n2, n3⟩
        | _ => ⟨0, 0, 0⟩
      else ⟨l, b, p⟩

/-! ## Equipment splitting and the batch vocabulary -/

def isEquipSep (c : Char) : Bool := c == '、' || c == ',' || c == '，'

/-- Split on the equipment separators, keeping empty pieces (JavaScript
split semantics). -/
def splitSeps : List Char → List (List Char)
  | [] => [[]]
  | c :: cs =>
    if isEquipSep c then [] :: splitSeps cs
    else
      match splitSeps cs with
      | h :: t => (c :: h) :: t
      | [] => [[c]]

/-- The trimmed non-empty equipment tokens of one raw equipment field. -/
def equipTokens (s : String) : List String :=
  ((splitSeps s.data).map (fun t => (⟨jsTrimList t⟩ : String))).filter (fun t => t ≠ "")

/-- Append a token if it is not yet present (JavaScript Set insertion
order). -/
def insertNew (a : List String) (t : String) : List String :=
  if t ∈ a then a else a ++ [t]

/-! ## Rows and object semantics -/

/-- A raw CSV row: field names to untyped text, in insertion order. -/
abbrev RawRow := List (String × String)

/-- An output row: field names to JavaScript values, in insertion order. -/
abbrev ORow := List (String × JsVal)

def rget : RawRow → String → Option String
  | [], _ => none
  | p :: t, k => if p.1 = k then some p.2 else rget t k

def rgetD (r : RawRow) (k : String) (d : String) : String := (rget r k).getD d

def hasKey : ORow → String → Bool
  | [], _ => false
  | p :: t, k => decide (p.1 = k) || hasKey t k

/-- JavaScript object property write: replace the property in place when
present, append otherwise. -/
def jset : ORow → String → JsVal → ORow
  | [], k, v => [(k, v)]
  | p :: t, k, v => if p.1 = k then (k, v) :: t else p :: jset t k v

def jget : ORow → String → Option JsVal
  | [], _ => none
  | p :: t, k => if p.1 = k then some p.2 else jget t k

/-- JavaScript delete of an object property. -/
def jdel : ORow → String → ORow
  | [], _ => []
  | p :: t, k => if p.1 = k then jdel t k else p :: jdel t k

/-- The batch equipment vocabulary: union of all tokens over every raw row,
in first-occurrence order (the pre-pass over the full corpus in clean.ts). -/
def equipVocab (data : List RawRow) : List String :=
  data.foldl (fun acc r => (equipTokens (rgetD r ("附屬設備") "")).foldl insertNew acc) []

/-! ## clean.ts constants -/

def DROP_COLS : List String :=
  [("交易標的"), ("土地面積平方公尺"), ("都市土地使用分區"), ("非都市土地使用分區"),
   ("非都市土地使用編定"), ("租賃筆棟數"), ("租賃期間"), ("租賃年月日"),
   ("建築完成年月"), ("車位類別"), ("車位面積平方公尺"), ("車位總額元"),
   ("附屬設備"), ("備註"), ("source_file")]

def PURPOSE_LIST : List String :=
  [("住家用"), ("住宅"), ("集合住宅"), ("多戶住宅"), ("國民住宅"), ("公寓"),
   ("雙併住宅"), ("農舍"), ("住商用"), ("住工用"), ("宿舍"), ("寄宿"), ("住宿單元")]

/-- The PURPOSE_RE test: the usage text contains one of the residential
phrases. -/
def purposeRe (s : String) : Bool := PURPOSE_LIST.any (fun u => containsSub s u)

/-- The rejection reasons of the cleaning stage.  Constructor names are
ASCII transliterations of the source literals: usageMismatch 用途不符,
subjectMismatch 交易標的不符, unitCountMismatch 租賃筆棟數不符, builtMissing
建築完成年月缺失, leaseMissing 租賃年月日缺失, floorUnclear 租賃層次不明,
materialUnclear 主要建材不明, zeroUnitPrice 單價為零, parkingInfo
無須車位出租相關資訊, roomsTooLarge 房過大, hallsTooLarge 廳過大,
bathsTooLarge 衛過大, totalMissing 總額缺失. -/
inductive Reason where
  | usageMismatch | subjectMismatch | unitCountMismatch | builtMissing | leaseMissing
  | floorUnclear | materialUnclear | zeroUnitPrice | parkingInfo
  | roomsTooLarge | hallsTooLarge | bathsTooLarge | totalMissing
deriving DecidableEq, Repr

/-! ## clean.ts row processing (delete rules fused with the transform) -/

def isoOfDate (d : Date) : String :=
  ⟨natDigits d.year ++ '-' :: pad2 d.month ++ '-' :: pad2 d.day⟩

/-- A raw field assigned through unchanged (undefined when absent). -/
def optStr (v : Option String) : JsVal :=
  match v with
  | none => JsVal.undef
  | some s => .str s

/-- The value of one of the five yes/no fields, coerced to 1, 0 or NA. -/
def flagVal (v : Option String) : JsVal :=
  match v.map trimS with
  | some t =>
    if t = ("有") then .num (.fin 1)
    else if t = ("無") then .num (.fin 0)
    else .str ("NA")
  | none => .str ("NA")

/-- Pass-through with NA for the empty string; absent stays undefined. -/
def naFill (v : Option String) : JsVal :=
  match v.map trimS with
  | some t => if t = "" then .str ("NA") else .str t
  | none => JsVal.undef

/-- A trimmed field with the falsy-or default NA (both the empty string and
an absent field become NA). -/
def orNA (v : Option String) : String :=
  match v.map trimS with
  | some t => if t = "" then ("NA") else t
  | none => ("NA")

/-- Lease-duration value: null becomes the NA sentinel, otherwise a number
(possibly NaN). -/
def pdaysVal (p : PDays) : JsVal :=
  match p with
  | .null => .str ("NA")
  | .nan => .num .nan
  | .days n => .num (.fin (JQ.ofInt n))

def flagKeys : List String :=
  [("建物現況格局-隔間"), ("有無管理組織"), ("有無附傢俱"), ("有無電梯"), ("有無管理員")]

def naKeys : List String := [("出租型態"), ("租賃住宅服務")]

/-- The transform half of the clean.ts forEach body applied to an admitted
row: builds the cleaned record from the values the guards computed (the
parsed unit counts, the two parsed dates, the coerced layout counts and the
parsed total) and the batch equipment vocabulary. -/
def transformRow (vocab : List String) (row : RawRow) (rat : Ratio)
    (builtD leaseD : Date) (rooms halls baths : JsNum) (total : JQ) : ORow :=
  let leaseISO := isoOfDate leaseD
  let builtISO := isoOfDate builtD
  let age := diffYears leaseD builtD
  let out := jset [] ("租賃年月日") (.str leaseISO)
  let out := jset out ("建築完成年月") (.str builtISO)
  let out := jset out ("屋齡") (.num (.fin (JQ.ofInt age)))
  let out := jset out ("屋齡分類") (.str (houseAgeClassify age))
  let out := jset out ("交易筆棟數-土地") (.num (.fin rat.land))
  let out := jset out ("交易筆棟數-建物") (.num (.fin rat.building))
  let out := jset out ("交易筆棟數-車位") (.num (.fin rat.parking))
  let out := jset out ("租賃天數")
    (pdaysVal (periodToDays (rgetD row ("租賃期間") "")))
  let out := jset out ("主要用途") (optStr (rget row ("主要用途")))
  let out := jset out ("主要用途分類")
    (.str (purposeClassify (rgetD row ("主要用途") "")))
  let out := jset out ("主要建材") (.str (orNA (rget row ("主要建材"))))
  let out := jset out ("建物現況格局-房") (.num rooms)
  let out := jset out ("建物現況格局-廳") (.num halls)
  let out := jset out ("建物現況格局-衛") (.num baths)
  let out := jset out ("租賃層次(四類)")
    (.str (floorChange (orNA (rget row ("租賃層次")))))
  let out := jset out ("建材分類")
    (.str (buildingMaterialClassify (orNA (rget row ("主要建材")))))
  let out := flagKeys.foldl (fun o k => jset o k (flagVal (rget row k))) out
  let out := naKeys.foldl (fun o k => jset o k (naFill (rget row k))) out
  let out := jset out ("總額元") (.num (.fin total))
  let out := row.foldl
    (fun o kv =>
      if kv.1 ∈ DROP_COLS then o
      else if hasKey o kv.1 then o
      else jset o kv.1 (.str kv.2)) out
  let own := equipTokens (rgetD row ("附屬設備") "")
  let out := vocab.foldl
    (fun o eq =>
      jset o (("附屬設備-") ++ eq)
        (.num (.fin (if eq ∈ own then 1 else 0)))) out
  out

/-- The body of the clean.ts forEach: the ordered delete rules, then the
transform of an admitted row against the batch equipment vocabulary. -/
def cleanRowStep (vocab : List String) (row : RawRow) : Except Reason ORow :=
  if ¬ purposeRe (rgetD row ("主要用途") "") then .error .usageMismatch
  else if containsSub (rgetD row ("交易標的") "") ("房地") then .error .subjectMismatch
  else
    let rat := parseTransRatio (rget row ("租賃筆棟數"))
    if jqEq rat.land 0 && jqEq rat.building 0 then .error .unitCountMismatch
    else
      match parseROC (rgetD row ("建築完成年月") "") with
      | none => .error .builtMissing
      | some builtD =>
        match parseROC (rgetD row ("租賃年月日") "") with
        | none => .error .leaseMissing
        | some leaseD =>
          let rooms := jsPlus (rget row ("建物現況格局-房"))
          if jsGT rooms 100 then .error .roomsTooLarge
          else
            let halls := jsPlus (rget row ("建物現況格局-廳"))
            if jsGT halls 100 then .error .hallsTooLarge
            else
              let baths := jsPlus (rget row ("建物現況格局-衛"))
              if jsGT baths 100 then .error .bathsTooLarge
              else
                match toNum (rget row ("總額元")) with
                | none => .error .totalMissing
                | some total =>
                  if rget row ("租賃層次") = some ("見其他登記事項") then
                    .error .floorUnclear
                  else if rget row ("主要建材") = some ("見其他登記事項") ∨
                      rget row ("主要建材") = some ("見使用執照") then
                    .error .materialUnclear
                  else if rget row ("單價元平方公尺") = some "" then .error .zeroUnitPrice
                  else if ¬ (rget row ("車位類別") = some "") then
                    .error .parkingInfo
                  else
                    .ok (transformRow vocab row rat builtD leaseD
                      rooms halls baths total)

/-- The rejection reason attributed by the clean.ts delete rules (none when
the row is admitted); the equipment vocabulary plays no role in admission. -/
def cleanReason (row : RawRow) : Option Reason :=
  match cleanRowStep [] row with
  | .error e => some e
  | .ok _ => none

/-- The full cleaning pass of clean.ts: the equipment vocabulary is collected
over every raw row first, then each row is filtered and transformed. -/
def cleanedRows (data : List RawRow) : List ORow :=
  data.filterMap (fun r => (cleanRowStep (equipVocab data) r).toOption)

/-! ## getRemovalReason (the refactored cleaning module) -/

/-- getRemovalReason: the guard chain of the refactored module, in its
order (usage, subject type, parking, unit counts, floor, material, unit
price, completion date, transaction date, layout counts, total amount); the
land and building counts are supplied by the caller. -/
def getRemovalReason (row : RawRow) (land building : JQ) : Option Reason :=
  if ¬ purposeRe (rgetD row ("主要用途") "") then some .usageMismatch
  else if containsSub (rgetD row ("交易標的") "") ("房地") then some .subjectMismatch
  else if ¬ (rget row ("車位類別") = some "") then some .parkingInfo
  else if jqEq land 0 && jqEq building 0 then some .unitCountMismatch
  else if rget row ("租賃層次") = some ("見其他登記事項") then some .floorUnclear
  else if rget row ("主要建材") = some ("見其他登記事項") ∨
      rget row ("主要建材") = some ("見使用執照") then some .materialUnclear
  else if rget row ("單價元平方公尺") = some "" then some .zeroUnitPrice
  else if (parseROC (rgetD row ("建築完成年月") "")).isNone then some .builtMissing
  else if (parseROC (rgetD row ("租賃年月日") "")).isNone then some .leaseMissing
  else if jsGT (jsPlus (rget row ("建物現況格局-房"))) 100 then some .roomsTooLarge
  else if jsGT (jsPlus (rget row ("建物現況格局-廳"))) 100 then some .hallsTooLarge
  else if jsGT (jsPlus (rget row ("建物現況格局-衛"))) 100 then some .bathsTooLarge
  else if (toNum (rget row ("總額元"))).isNone then some .totalMissing
  else none

/-- First reason whose guard fires, for an ordered guard list. -/
def firstHit : List (Bool × Reason) → Option Reason
  | [] => none
  | g :: t => if g.1 then some g.2 else firstHit t

/-- Modelled from the spec: the ordered admission guard list of section 4.3
(usage mismatch, transaction-type mismatch, parking info present, zero
land-and-building unit count, ambiguous floor, ambiguous material, zero unit
price, unparsable completion date, unparsable transaction date, room, hall
and bath count too large, unparsable total amount). -/
def specGuards (row : RawRow) (land building : JQ) : List (Bool × Reason) :=
  [(! purposeRe (rgetD row ("主要用途") ""), .usageMismatch),
   (containsSub (rgetD row ("交易標的") "") ("房地"), .subjectMismatch),
   (decide (¬ (rget row ("車位類別") = some "")), .parkingInfo),
   (jqEq land 0 && jqEq building 0, .unitCountMismatch),
   (decide (rget row ("租賃層次") = some ("見其他登記事項")), .floorUnclear),
   (decide (rget row ("主要建材") = some ("見其他登記事項") ∨
      rget row ("主要建材") = some ("見使用執照")), .materialUnclear),
   (decide (rget row ("單價元平方公尺") = some ""), .zeroUnitPrice),
   ((parseROC (rgetD row ("建築完成年月") "")).isNone, .builtMissing),
   ((parseROC (rgetD row ("租賃年月日") "")).isNone, .leaseMissing),
   (jsGT (jsPlus (rget row ("建物現況格局-房"))) 100, .roomsTooLarge),
   (jsGT (jsPlus (rget row ("建物現況格局-廳"))) 100, .hallsTooLarge),
   (jsGT (jsPlus (rget row ("建物現況格局-衛"))) 100, .bathsTooLarge),
   ((toNum (rget row ("總額元"))).isNone, .totalMissing)]

/-- The section 4.3 short-circuiting filter: the first matching guard's
reason. -/
def specFirstReason (row : RawRow) (land building : JQ) : Option Reason :=
  firstHit (specGuards row land building)

/-! ## merge.ts: the proximity enrichment join -/

/-- Fraction digits of a terminating decimal expansion, by long division
(with fuel; every number produced by this pipeline terminates). -/
def fracDigits (fuel num den : Nat) : List Char :=
  match fuel with
  | 0 => []
  | f + 1 =>
    if num = 0 then []
    else dChar (num * 10 / den) :: fracDigits f (num * 10 % den) den

/-- JavaScript number-to-string conversion for the values that occur in this
pipeline (integers and terminating decimals). -/
def numToString (x : JsNum) : String :=
  match x with
  | .nan => ("NaN")
  | .inf => ("Infinity")
  | .ninf => ("-Infinity")
  | .fin q =>
    let sign : List Char := if q.num < 0 then ['-'] else []
    let n := q.num.natAbs
    let ip := natDigits (n / q.den)
    let fp := fracDigits 40 (n % q.den) q.den
    ⟨sign ++ ip ++ (if fp.isEmpty then [] else '.' :: fp)⟩

/-- JavaScript String(x) applied to a record field (an absent field is
undefined and prints as the text undefined). -/
def jsToStr (v : Option JsVal) : String :=
  match v with
  | none => ("undefined")
  | some JsVal.undef => ("undefined")
  | some (.str s) => s
  | some (.num x) => numToString x

/-- JavaScript String(x ?? ""): null or undefined coalesce to the empty
string first. -/
def coalStr (v : Option JsVal) : String :=
  match v with
  | none => ""
  | some JsVal.undef => ""
  | some (.str s) => s
  | some (.num x) => numToString x

/-- The eight transit line flag columns, in their fixed enumeration order. -/
def lineCols : List String :=
  [("文湖線"), ("淡水信義線"), ("新北投支線"), ("松山新店線"),
   ("小碧潭支線"), ("中和新蘆線"), ("板南線"), ("環狀線")]

/-- The secondary columns copied by the join. -/
def mrtCols : List String :=
  [("x"), ("y"), ("最近捷運站"), ("捷運站距離.公尺.")] ++ lineCols ++
  [("通車日期"), ("附近建物單位成交均價")]

/-- Insert into the identifier-keyed lookup map; a later row with the same
trimmed identifier overwrites the earlier one. -/
def mset : List (String × ORow) → String → ORow → List (String × ORow)
  | [], k, r => [(k, r)]
  | p :: t, k, r => if p.1 = k then (k, r) :: t else p :: mset t k r

def mfind : List (String × ORow) → String → Option ORow
  | [], _ => none
  | p :: t, k => if p.1 = k then some p.2 else mfind t k

/-- Build the lookup from the secondary rows keyed by the trimmed
identifier. -/
def buildMrtMap (mrtRows : List ORow) : List (String × ORow) :=
  mrtRows.foldl (fun m r => mset m (trimS (jsToStr (jget r ("編號")))) r) []

/-- The value copied for one secondary column: the matched row's field, with
null or undefined (including a missing match) coalescing to the empty
string. -/
def copyVal (mrt : Option ORow) (c : String) : JsVal :=
  match mrt with
  | none => .str ""
  | some mr =>
    match jget mr c with
    | none => .str ""
    | some JsVal.undef => .str ""
    | some v => v

/-- The active-line test on a copied flag: trimmed, non-empty, and its
Number coercion is exactly one. -/
def lineActive (s : String) : Bool :=
  let v := trimS s
  decide (v ≠ "") && (match jsNumber v with
    | .fin a => jqEq a 1
    | _ => false)

/-- One rename step: copy the old column's value to the new name and delete
the old name, when present. -/
def renameCol (row : ORow) (oldK newK : String) : ORow :=
  if hasKey row oldK then jdel (jset row newK ((jget row oldK).getD JsVal.undef)) oldK
  else row

/-- The enrichment of one cleaned row (one step of the joined map in
merge.ts): spread-copy, copy the secondary columns, derive the active lines
and the transfer-station flag, rename the coordinate and distance columns. -/
def enrichRow (m : List (String × ORow)) (rent : ORow) : ORow :=
  let id := trimS (jsToStr (jget rent ("編號")))
  let mrt := mfind m id
  let row := mrtCols.foldl (fun ro c => jset ro c (copyVal mrt c)) rent
  let active := lineCols.filter (fun c => lineActive (coalStr (jget row c)))
  let row := jset row ("捷運線") (.str (String.intercalate (",") active))
  let row := jset row ("轉乘站") (.num (.fin (if 2 ≤ active.length then 1 else 0)))
  let row := renameCol row ("x") ("座標 x")
  let row := renameCol row ("y") ("座標 y")
  let row := renameCol row ("捷運站距離.公尺.") ("捷運站距離(公尺)")
  row

/-- The required-value filter: keep rows whose reference unit price is
non-empty after trimming. -/
def priceKeep (r : ORow) : Bool :=
  decide (trimS (jsToStr (jget r ("附近建物單位成交均價"))) ≠ "")

/-- The full merge stage: left join, price filter, and removal of the join
key column. -/
def mergeOutput (rentRows mrtRows : List ORow) : List ORow :=
  let m := buildMrtMap mrtRows
  let joined := rentRows.map (enrichRow m)
  let filtered := joined.filter priceKeep
  filtered.map (fun r => jdel r ("編號"))

/-! ## Lemma library on the object operations -/

theorem jget_jset (o : ORow) (k k' : String) (v : JsVal) :
    jget (jset o k v) k' = if k' = k then some v else jget o k' := by
  induction o with
  | nil =>
    by_cases h : k' = k
    · simp [jset, jget, h]
    · have h2 : ¬ (k = k') := fun he => h he.symm
      simp [jset, jget, h, h2]
  | cons p t ih =>
    by_cases hp : p.1 = k
    · rw [show jset (p :: t) k v = (k, v) :: t from by simp [jset, hp]]
      by_cases h : k' = k
      · simp [jget, h]
      · have h2 : ¬ (k = k') := fun he => h he.symm
        have h3 : ¬ (p.1 = k') := fun he => h2 (hp ▸ he)
        simp [jget, h, h2, h3]
    · rw [show jset (p :: t) k v = p :: jset t k v from by simp [jset, hp]]
      by_cases hq : p.1 = k'
      · have h : ¬ (k' = k) := fun he => hp (hq.trans he)
        simp [jget, hq, h]
      · simp [jget, hq, ih]

theorem jget_jdel (o : ORow) (k k' : String) :
    jget (jdel o k) k' = if k' = k then none else jget o k' := by
  induction o with
  | nil => by_cases h : k' = k <;> simp [jdel, jget, h]
  | cons p t ih =>
    by_cases hp : p.1 = k
    · rw [show jdel (p :: t) k = jdel t k from by simp [jdel, hp]]
      by_cases h : k' = k
      · subst h; simp [ih]
      · have h3 : ¬ (p.1 = k') := fun he => h (he.symm.trans hp)
        simp [jget, ih, h, h3]
    · rw [show jdel (p :: t) k = p :: jdel t k from by simp [jdel, hp]]
      by_cases hq : p.1 = k'
      · have h : ¬ (k' = k) := fun he => hp (hq.trans he)
        simp [jget, hq, h]
      · simp [jget, hq, ih]

theorem hasKey_isSome (o : ORow) (k : String) :
    hasKey o k = (jget o k).isSome := by
  induction o with
  | nil => simp [hasKey, jget]
  | cons p t ih =>
    by_cases hp : p.1 = k
    · simp [hasKey, jget, hp]
    · simp [hasKey, jget, hp, ih]

theorem isInfixL_nil (cs : List Char) : isInfixL [] cs = true := by
  cases cs <;> simp [isInfixL, List.isPrefixOf]

theorem containsSub_empty (s : String) : containsSub s "" = true :=
  isInfixL_nil s.data

/-! ## C6: parseUnitCounts -/

/-- C6: parseUnitCounts applies the labeled strategy first and the
positional fallback only when all three labeled results are zero: whenever
the labeled scan yields any nonzero component its result is returned
unchanged; the labeled example 土地:2 建物:1 車位:0 gives land 2, building 1,
parking 0; the unlabeled 1 1 0 has an all-zero labeled scan and gives
land 1, building 1, parking 0 via the fallback; the empty string gives all
zeros. -/
theorem C6_parseUnitCounts :
    (∀ s : String,
        (jqEq (labeledScan s).1 0 && jqEq (labeledScan s).2.1 0 &&
          jqEq (labeledScan s).2.2 0) = false →
        parseTransRatio (some s) =
          ⟨(labeledScan s).1, (labeledScan s).2.1, (labeledScan s).2.2⟩) ∧
    parseTransRatio (some ("土地:2 建物:1 車位:0")) = ⟨2, 1, 0⟩ ∧
    labeledScan ("1 1 0") = (0, 0, 0) ∧
    parseTransRatio (some ("1 1 0")) = ⟨1, 1, 0⟩ ∧
    parseTransRatio (some "") = ⟨0, 0, 0⟩ := by
  refine ⟨?_, by decide, by decide, by decide, by decide⟩
  intro s h
  have hs : s ≠ "" := by
    intro he; subst he; revert h; decide
  simp only [parseTransRatio]
  rw [if_neg hs]
  rcases hsc : labeledScan s with ⟨l, b, p⟩
  rw [hsc] at h
  simp only [hsc]
  simp [h]

/-- Witness for C6 at the labeled example. -/
theorem C6_parseUnitCounts_witness :
    (jqEq (labeledScan ("土地:2 建物:1 車位:0")).1 0 &&
      jqEq (labeledScan ("土地:2 建物:1 車位:0")).2.1 0 &&
      jqEq (labeledScan ("土地:2 建物:1 車位:0")).2.2 0) = false ∧
    parseTransRatio (some ("土地:2 建物:1 車位:0")) =
      ⟨(labeledScan ("土地:2 建物:1 車位:0")).1,
       (labeledScan ("土地:2 建物:1 車位:0")).2.1,
       (labeledScan ("土地:2 建物:1 車位:0")).2.2⟩ :=
  ⟨by decide, C6_parseUnitCounts.1 _ (by decide)⟩

/-! ## C4: classifyUsage on non-matching non-empty text -/

/-- C4 counterexample: the non-empty input xyz contains no vocabulary word
of the first five usage groups and no other-group word, yet purposeClassify
returns 未知 rather than the NA claimed: the empty-string pattern of the
unknown group is a substring of every string. -/
theorem C4_counterexample :
    ((mainUsage.take 5).all (fun g => g.2.all (fun u => ! containsSub ("xyz") u))) = true ∧
    containsSub ("xyz") ("其他") = false ∧
    purposeClassify ("xyz") = ("未知") ∧ (("未知") : String) ≠ ("NA") := by decide

/-- C4 amended: for every input containing no vocabulary word of the first
five usage groups, purposeClassify returns 未知 (not NA): the unknown
group's empty pattern matches every string, so the other group and the NA
default are unreachable for such inputs. -/
theorem C4_unknownFallback (s : String)
    (h : ∀ g ∈ mainUsage.take 5, ∀ u ∈ g.2, containsSub s u = false) :
    purposeClassify s = ("未知") := by
  have h1 := h _ (show ((("住宅類"), ["住宅", "住家用", "集合住宅", "多戶住宅", "公寓"]))
    ∈ mainUsage.take 5 by decide)
  have h2 := h _ (show ((("住商混合"), ["住商", "住工", "住宅、店舖"]))
    ∈ mainUsage.take 5 by decide)
  have h3 := h _ (show ((("商業用途"), ["商業", "辦公", "事務所", "零售業", "店舖"]))
    ∈ mainUsage.take 5 by decide)
  have h4 := h _ (show ((("工業用途"), ["工業", "工廠", "廠房", "倉儲"]))
    ∈ mainUsage.take 5 by decide)
  have h5 := h _ (show ((("特殊用途"), ["防空", "醫", "學", "福利", "宿舍", "交通"]))
    ∈ mainUsage.take 5 by decide)
  have f1 : ((["住宅", "住家用", "集合住宅", "多戶住宅", "公寓"]).any
      (fun u => containsSub s u)) = false :=
    List.any_eq_false.mpr (fun u hu => by simp [h1 u hu])
  have f2 : ((["住商", "住工", "住宅、店舖"]).any (fun u => containsSub s u)) = false :=
    List.any_eq_false.mpr (fun u hu => by simp [h2 u hu])
  have f3 : ((["商業", "辦公", "事務所", "零售業", "店舖"]).any
      (fun u => containsSub s u)) = false :=
    List.any_eq_false.mpr (fun u hu => by simp [h3 u hu])
  have f4 : ((["工業", "工廠", "廠房", "倉儲"]).any (fun u => containsSub s u)) = false :=
    List.any_eq_false.mpr (fun u hu => by simp [h4 u hu])
  have f5 : ((["防空", "醫", "學", "福利", "宿舍", "交通"]).any
      (fun u => containsSub s u)) = false :=
    List.any_eq_false.mpr (fun u hu => by simp [h5 u hu])
  simp [purposeClassify, firstGroup, mainUsage, List.find?, f1, f2, f3, f4, f5,
    containsSub_empty]

/-- Witness for C4 at the input xyz. -/
theorem C4_unknownFallback_witness :
    (∀ g ∈ mainUsage.take 5, ∀ u ∈ g.2, containsSub ("xyz") u = false) ∧
      purposeClassify ("xyz") = ("未知") :=
  ⟨by decide, C4_unknownFallback ("xyz") (by decide)⟩

/-! ## C5: classifyFloor on unparsable text -/

/-- C5 counterexample: NA is not a whole-building literal and contains no
domestic-numeral character, yet classifyFloor returns 低樓層 (the text is
coerced to floor 0), not the NA claimed. -/
theorem C5_counterexample :
    (("NA") : String) ≠ ("全") ∧ (("NA") : String) ≠ ("整棟") ∧
    (("NA") : String) ≠ ("整層") ∧
    ((("NA") : String)).data.all (fun c => (digitMap c).isNone && !(c == '十')) = true ∧
    floorToNumber ("NA") = 0 ∧
    floorChange ("NA") = ("低樓層") ∧ (("低樓層") : String) ≠ ("NA") := by decide

/-- C5 amended: for every input that is not a whole-building literal,
classifyFloor buckets the coerced floor number (negative to 地下室, up to
ten to 低樓層, up to twenty to 中樓層, above twenty to 高樓層) and never
returns NA; unparsable text is coerced to 0 by floorToNumber and therefore
lands in 低樓層 (or 地下室 under a basement prefix), not NA. -/
theorem C5_floorBuckets (s : String)
    (h1 : s ≠ ("全")) (h2 : s ≠ ("整棟")) (h3 : s ≠ ("整層")) :
    floorChange s =
      (if floorToNumber s < 0 then ("地下室")
       else if floorToNumber s ≤ 10 then ("低樓層")
       else if floorToNumber s ≤ 20 then ("中樓層")
       else ("高樓層")) ∧
    floorChange s ≠ ("NA") := by
  have hw : ¬ (s = ("全") ∨ s = ("整棟") ∨ s = ("整層")) := by
    rintro (h | h | h)
    · exact h1 h
    · exact h2 h
    · exact h3 h
  have hb : floorChange s =
      (if floorToNumber s < 0 then ("地下室")
       else if floorToNumber s ≤ 10 then ("低樓層")
       else if floorToNumber s ≤ 20 then ("中樓層")
       else ("高樓層")) := by
    simp only [floorChange, if_neg hw]
    by_cases c1 : floorToNumber s < 0
    · simp [c1]
    · by_cases c2 : floorToNumber s ≤ 10
      · simp [c1, c2]
      · by_cases c3 : floorToNumber s ≤ 20
        · simp [c1, c2, c3]
        · have c4 : floorToNumber s > 20 := by omega
          simp [c1, c2, c3, c4]
  refine ⟨hb, ?_⟩
  rw [hb]
  split_ifs <;> decide

/-- Witness for C5 at the input NA. -/
theorem C5_floorBuckets_witness :
    (("NA") : String) ≠ ("整棟") ∧ floorChange ("NA") ≠ ("NA") :=
  ⟨by decide, (C5_floorBuckets ("NA") (by decide) (by decide) (by decide)).2⟩

/-! ## C7: the end-to-end scenario row -/

/-- The raw row of the end-to-end scenario. -/
def row7 : RawRow :=
  [(("主要用途"), ("住宅")), (("交易標的"), ("建物")), (("車位類別"), ""),
   (("租賃筆棟數"), ("土地:1 建物:1")), (("租賃層次"), ("5層")),
   (("主要建材"), ("加強磚造")), (("單價元平方公尺"), ("300000")),
   (("建築完成年月"), ("0741015")), (("租賃年月日"), ("1130601")),
   (("建物現況格局-房"), ("2")), (("建物現況格局-廳"), ("1")),
   (("建物現況格局-衛"), ("1")), (("總額元"), ("25000"))]

/-- The cleaned record produced from the scenario row by the full pipeline. -/
def row7out : ORow := ((cleanedRows [row7]).headD [])

/-- C7 counterexample: the scenario row is admitted, but its material
category is 加強磚造類, not the 加強磚造造類 stated by the claim. -/
theorem C7_counterexample :
    jget row7out ("建材分類") = some (.str ("加強磚造類")) ∧
    JsVal.str ("加強磚造類") ≠ JsVal.str ("加強磚造造類") := by decide

/-- C7 amended: the scenario row is admitted and its cleaned record has
transaction date 2024-06-01, completion date 1985-10-15, age 38, age
category 30-40年, floor category 低樓層, material category 加強磚造類
(category label as in the source), unit counts land 1 and building 1, and
total 25000. -/
theorem C7_endToEnd :
    cleanReason row7 = none ∧
    cleanedRows [row7] = [row7out] ∧
    jget row7out ("租賃年月日") = some (.str ("2024-06-01")) ∧
    jget row7out ("建築完成年月") = some (.str ("1985-10-15")) ∧
    jget row7out ("屋齡") = some (.num (.fin 38)) ∧
    jget row7out ("屋齡分類") = some (.str ("30-40年")) ∧
    jget row7out ("租賃層次(四類)") = some (.str ("低樓層")) ∧
    jget row7out ("建材分類") = some (.str ("加強磚造類")) ∧
    jget row7out ("交易筆棟數-土地") = some (.num (.fin 1)) ∧
    jget row7out ("交易筆棟數-建物") = some (.num (.fin 1)) ∧
    jget row7out ("總額元") = some (.num (.fin 25000)) := by decide

/-! ## C1: rejection priority order -/

/-- A raw row carrying both a non-empty parking category and an empty unit
price (admissible on every other guard). -/
def rowC1 : RawRow :=
  [(("主要用途"), ("住宅")), (("交易標的"), ("建物")), (("車位類別"), ("坡道平面")),
   (("租賃筆棟數"), ("土地:1 建物:1")), (("租賃層次"), ("5層")),
   (("主要建材"), ("加強磚造")), (("單價元平方公尺"), ""),
   (("建築完成年月"), ("0741015")), (("租賃年月日"), ("1130601")),
   (("建物現況格局-房"), ("2")), (("建物現況格局-廳"), ("1")),
   (("建物現況格局-衛"), ("1")), (("總額元"), ("25000"))]

/-- C1 counterexample: under the clean.ts delete rules a record with a
non-empty parking category and an empty unit price is rejected with the
zero-unit-price reason, not the parking-info reason demanded by the claim:
the clean.ts chain checks the unit price before the parking category. -/
theorem C1_counterexample :
    rget rowC1 ("車位類別") = some ("坡道平面") ∧
    rget rowC1 ("單價元平方公尺") = some "" ∧
    cleanReason rowC1 = some Reason.zeroUnitPrice ∧
    Reason.zeroUnitPrice ≠ Reason.parkingInfo := by decide

/-- C1 amended: the refactored getRemovalReason filter short-circuits on the
first matching guard of the section 4.3 priority order (proved as equality
with the ordered first-hit list), and under it the parking-and-empty-price
record receives the parking-info reason; the single-pass clean.ts delete
rules use a different order in which the unit-price guard precedes the
parking guard, so the same record is rejected there with the zero-unit-price
reason. -/
theorem C1_priorityOrder :
    (∀ (row : RawRow) (land building : JQ),
        getRemovalReason row land building = specFirstReason row land building) ∧
    getRemovalReason rowC1 1 1 = some Reason.parkingInfo ∧
    cleanReason rowC1 = some Reason.zeroUnitPrice := by
  refine ⟨?_, by decide, by decide⟩
  intro row land building
  unfold getRemovalReason specFirstReason specGuards
  simp only [firstHit, Bool.not_eq_true', decide_eq_true_eq, Bool.not_eq_true]

/-! ## C3: parseLocalDate on the concatenated digit encodings -/

theorem dChar_isDigit (k : Nat) (h : k ≤ 9) : (dChar k).isDigit = true := by
  interval_cases k <;> decide

theorem isWs_dChar (k : Nat) (h : k ≤ 9) : isWs (dChar k) = false := by
  interval_cases k <;> decide

theorem dot_beq_dChar (k : Nat) (h : k ≤ 9) : (('.' : Char) == dChar k) = false := by
  interval_cases k <;> decide

theorem dVal_dChar (k : Nat) (h : k ≤ 9) : dVal (dChar k) = k := by
  interval_cases k <;> decide

theorem daysInMonth_le (y m : Nat) : daysInMonth y m ≤ 31 := by
  unfold daysInMonth
  split_ifs <;> omega

/-- The seven-digit concatenated offset-date encoding: a three-digit
zero-padded offset year, a two-digit month and a two-digit day. -/
def sevenDigits (Y M D : Nat) : List Char :=
  [dChar (Y / 100), dChar (Y / 10 % 10), dChar (Y % 10),
   dChar (M / 10), dChar (M % 10), dChar (D / 10), dChar (D % 10)]

/-- The six-digit encoding with a two-digit offset year. -/
def sixDigits (Y M D : Nat) : List Char :=
  [dChar (Y / 10), dChar (Y % 10),
   dChar (M / 10), dChar (M % 10), dChar (D / 10), dChar (D % 10)]

/-- Evaluation of the digit branch of parseROC on an arbitrary seven-digit
list. -/
theorem parseROCl_digits7 (a b c d e f g : Nat)
    (ha : a ≤ 9) (hb : b ≤ 9) (hc : c ≤ 9) (hd : d ≤ 9) (he : e ≤ 9)
    (hf : f ≤ 9) (hg : g ≤ 9) :
    parseROCl [dChar a, dChar b, dChar c, dChar d, dChar e, dChar f, dChar g] =
      (if validDate (100 * a + 10 * b + c + 1911) (10 * d + e) (10 * f + g) then
        some ⟨100 * a + 10 * b + c + 1911, 10 * d + e, 10 * f + g⟩
      else none) := by
  have t1 : jsTrimList [dChar a, dChar b, dChar c, dChar d, dChar e, dChar f, dChar g] =
      [dChar a, dChar b, dChar c, dChar d, dChar e, dChar f, dChar g] := by
    simp [jsTrimList, jsTrimL, jsTrimR, List.dropWhile, isWs_dChar,
      ha, hb, hc, hd, he, hf, hg]
  have t2 : ¬ ([dChar a, dChar b, dChar c, dChar d, dChar e, dChar f, dChar g].map
      Char.toLower = ("nan").data) := by
    intro hcon
    have := congrArg List.length hcon
    simp at this
  have t3 : ([('.' : Char), '0'].isSuffixOf
      [dChar a, dChar b, dChar c, dChar d, dChar e, dChar f, dChar g]) = false := by
    simp [List.isSuffixOf, List.isPrefixOf, dot_beq_dChar, hf]
  have e1 : toNatDigits [dChar a, dChar b, dChar c] = 100 * a + 10 * b + c := by
    simp [toNatDigits, List.foldl, dVal_dChar, ha, hb, hc]
    ring
  have e2 : toNatDigits [dChar d, dChar e] = 10 * d + e := by
    simp [toNatDigits, List.foldl, dVal_dChar, hd, he]
  have e3 : toNatDigits [dChar f, dChar g] = 10 * f + g := by
    simp [toNatDigits, List.foldl, dVal_dChar, hf, hg]
  simp only [parseROCl, t1, t3]
  rw [if_neg (by simp), if_neg t2]
  rw [if_pos (by simp [dChar_isDigit, ha, hb, hc, hd, he, hf, hg])]
  simp only [List.length, if_neg (by omega : ¬ (7 = 6)), List.take, List.drop]
  rw [e1, e2, e3]

/-- Evaluation of the digit branch of parseROC on an arbitrary six-digit
list (left-padded with one zero before cutting). -/
theorem parseROCl_digits6 (b c d e f g : Nat)
    (hb : b ≤ 9) (hc : c ≤ 9) (hd : d ≤ 9) (he : e ≤ 9)
    (hf : f ≤ 9) (hg : g ≤ 9) :
    parseROCl [dChar b, dChar c, dChar d, dChar e, dChar f, dChar g] =
      (if validDate (10 * b + c + 1911) (10 * d + e) (10 * f + g) then
        some ⟨10 * b + c + 1911, 10 * d + e, 10 * f + g⟩
      else none) := by
  have t1 : jsTrimList [dChar b, dChar c, dChar d, dChar e, dChar f, dChar g] =
      [dChar b, dChar c, dChar d, dChar e, dChar f, dChar g] := by
    simp [jsTrimList, jsTrimL, jsTrimR, List.dropWhile, isWs_dChar,
      hb, hc, hd, he, hf, hg]
  have t2 : ¬ ([dChar b, dChar c, dChar d, dChar e, dChar f, dChar g].map
      Char.toLower = ("nan").data) := by
    intro hcon
    have := congrArg List.length hcon
    simp at this
  have t3 : ([('.' : Char), '0'].isSuffixOf
      [dChar b, dChar c, dChar d, dChar e, dChar f, dChar g]) = false := by
    simp [List.isSuffixOf, List.isPrefixOf, dot_beq_dChar, hf]
  have h0 : dVal '0' = 0 := by decide
  have e1 : toNatDigits [('0' : Char), dChar b, dChar c] = 10 * b + c := by
    simp [toNatDigits, List.foldl, dVal_dChar, hb, hc, h0]
  have e2 : toNatDigits [dChar d, dChar e] = 10 * d + e := by
    simp [toNatDigits, List.foldl, dVal_dChar, hd, he]
  have e3 : toNatDigits [dChar f, dChar g] = 10 * f + g := by
    simp [toNatDigits, List.foldl, dVal_dChar, hf, hg]
  simp only [parseROCl, t1, t3]
  rw [if_neg (by simp), if_neg t2]
  rw [if_pos (by simp [dChar_isDigit, hb, hc, hd, he, hf, hg])]
  simp only [List.length, if_pos rfl, List.take, List.drop]
  rw [e1, e2, e3]

/-- C3: for every valid seven-digit (or left-zero-padded six-digit) local
date string with offset year Y, month M between one and twelve and day D
valid for that month, parseROC yields the calendar date with year Y plus
1911, month M and day D; the empty string, the case-insensitive nan token
and a string failing calendar validation such as 114133 are unparsable; a
trailing dot-zero suffix is stripped before parsing. -/
theorem C3_parseLocalDate :
    (∀ Y M D : Nat, Y ≤ 999 → 1 ≤ M → M ≤ 12 → 1 ≤ D →
        D ≤ daysInMonth (Y + 1911) M →
        parseROCl (sevenDigits Y M D) = some ⟨Y + 1911, M, D⟩ ∧
        (Y ≤ 99 → parseROCl (sixDigits Y M D) = some ⟨Y + 1911, M, D⟩)) ∧
    parseROC "" = none ∧
    (∀ s : String, (jsTrimList s.data).map Char.toLower = ("nan").data →
        parseROC s = none) ∧
    parseROC ("nan") = none ∧ parseROC ("NaN") = none ∧
    parseROC ("114133") = none ∧
    parseROC ("1130601.0") = some ⟨2024, 6, 1⟩ ∧
    parseROC ("1130601") = some ⟨2024, 6, 1⟩ := by
  refine ⟨?_, by decide, ?_, by decide, by decide, by decide, by decide, by decide⟩
  · intro Y M D h1 h2 h3 h4 h5
    have hD31 : D ≤ 31 := le_trans h5 (daysInMonth_le (Y + 1911) M)
    have f1 : Y / 100 ≤ 9 := by omega
    have f2 : Y / 10 % 10 ≤ 9 := by omega
    have f3 : Y % 10 ≤ 9 := by omega
    have f4 : M / 10 ≤ 9 := by omega
    have f5 : M % 10 ≤ 9 := by omega
    have f6 : D / 10 ≤ 9 := by omega
    have f7 : D % 10 ≤ 9 := by omega
    have hv : validDate (Y + 1911) M D = true := by
      simp only [validDate, Bool.and_eq_true, decide_eq_true_eq]
      exact ⟨⟨⟨h2, h3⟩, h4⟩, h5⟩
    have hy : 100 * (Y / 100) + 10 * (Y / 10 % 10) + Y % 10 = Y := by omega
    have hm : 10 * (M / 10) + M % 10 = M := by omega
    have hd : 10 * (D / 10) + D % 10 = D := by omega
    constructor
    · rw [sevenDigits, parseROCl_digits7 _ _ _ _ _ _ _ f1 f2 f3 f4 f5 f6 f7,
        hy, hm, hd, if_pos hv]
    · intro hY
      have g1 : Y / 10 ≤ 9 := by omega
      have hy6 : 10 * (Y / 10) + Y % 10 = Y := by omega
      rw [sixDigits, parseROCl_digits6 _ _ _ _ _ _ g1 f3 f4 f5 f6 f7,
        hy6, hm, hd, if_pos hv]
  · intro s hnan
    simp only [parseROC, parseROCl]
    by_cases he : (jsTrimList s.data).isEmpty
    · rw [if_pos he]
    · rw [if_neg he, if_pos hnan]

/-- Witness for C3 at the scenario dates (offset year 74, also expressible
as a six-digit string, and offset year 113). -/
theorem C3_parseLocalDate_witness :
    ((74 : Nat) ≤ 999 ∧ 1 ≤ 10 ∧ (10 : Nat) ≤ 12 ∧ 1 ≤ 15 ∧
      (15 : Nat) ≤ daysInMonth 1985 10) ∧
    parseROCl (sevenDigits 74 10 15) = some ⟨1985, 10, 15⟩ ∧
    parseROCl (sixDigits 74 10 15) = some ⟨1985, 10, 15⟩ ∧
    parseROC ("NAN") = none :=
  ⟨by decide,
   ((C3_parseLocalDate.1 74 10 15 (by decide) (by decide) (by decide) (by decide)
      (by decide)).1),
   ((C3_parseLocalDate.1 74 10 15 (by decide) (by decide) (by decide) (by decide)
      (by decide)).2 (by decide)),
   (C3_parseLocalDate.2.2.1 ("NAN") (by decide))⟩

/-! ## C10: the layout-size guards and NaN coercion -/

/-- C10: for a record that reaches the layout guards (the usage, subject,
unit-count and two date guards all pass), the room rejection fires exactly
when the room text coerces to a number strictly greater than one hundred,
the hall and bath rejections behave the same way once the preceding layout
guards pass, and a field whose coercion is NaN never triggers its layout
rejection (the comparison with NaN is false), so the record passes that
guard. -/
theorem C10_layoutGuards (row : RawRow)
    (h1 : purposeRe (rgetD row ("主要用途") "") = true)
    (h2 : containsSub (rgetD row ("交易標的") "") ("房地") = false)
    (h3 : (jqEq (parseTransRatio (rget row ("租賃筆棟數"))).land 0 &&
           jqEq (parseTransRatio (rget row ("租賃筆棟數"))).building 0) = false)
    (h4 : (parseROC (rgetD row ("建築完成年月") "")).isSome = true)
    (h5 : (parseROC (rgetD row ("租賃年月日") "")).isSome = true) :
    (cleanReason row = some Reason.roomsTooLarge ↔
      jsGT (jsPlus (rget row ("建物現況格局-房"))) 100 = true) ∧
    (jsGT (jsPlus (rget row ("建物現況格局-房"))) 100 = false →
      (cleanReason row = some Reason.hallsTooLarge ↔
        jsGT (jsPlus (rget row ("建物現況格局-廳"))) 100 = true)) ∧
    (jsGT (jsPlus (rget row ("建物現況格局-房"))) 100 = false →
      jsGT (jsPlus (rget row ("建物現況格局-廳"))) 100 = false →
      (cleanReason row = some Reason.bathsTooLarge ↔
        jsGT (jsPlus (rget row ("建物現況格局-衛"))) 100 = true)) ∧
    (jsPlus (rget row ("建物現況格局-房")) = JsNum.nan →
      cleanReason row ≠ some Reason.roomsTooLarge) ∧
    (jsPlus (rget row ("建物現況格局-廳")) = JsNum.nan →
      cleanReason row ≠ some Reason.hallsTooLarge) ∧
    (jsPlus (rget row ("建物現況格局-衛")) = JsNum.nan →
      cleanReason row ≠ some Reason.bathsTooLarge) := by
  obtain ⟨d1, hd1⟩ := Option.isSome_iff_exists.mp h4
  obtain ⟨d2, hd2⟩ := Option.isSome_iff_exists.mp h5
  have hred : ∃ tl : Option Reason,
      tl ≠ some Reason.roomsTooLarge ∧ tl ≠ some Reason.hallsTooLarge ∧
      tl ≠ some Reason.bathsTooLarge ∧
      cleanReason row =
        (if jsGT (jsPlus (rget row ("建物現況格局-房"))) 100 then
          some Reason.roomsTooLarge
        else if jsGT (jsPlus (rget row ("建物現況格局-廳"))) 100 then
          some Reason.hallsTooLarge
        else if jsGT (jsPlus (rget row ("建物現況格局-衛"))) 100 then
          some Reason.bathsTooLarge
        else tl) := by
    refine ⟨(match toNum (rget row ("總額元")) with
      | none => some Reason.totalMissing
      | some _ =>
        if rget row ("租賃層次") = some ("見其他登記事項") then
          some Reason.floorUnclear
        else if rget row ("主要建材") = some ("見其他登記事項") ∨
            rget row ("主要建材") = some ("見使用執照") then
          some Reason.materialUnclear
        else if rget row ("單價元平方公尺") = some "" then some Reason.zeroUnitPrice
        else if ¬ (rget row ("車位類別") = some "") then some Reason.parkingInfo
        else none), ?_, ?_, ?_, ?_⟩
    · rcases toNum (rget row ("總額元")) with _ | q <;> [skip; split_ifs] <;> simp
    · rcases toNum (rget row ("總額元")) with _ | q <;> [skip; split_ifs] <;> simp
    · rcases toNum (rget row ("總額元")) with _ | q <;> [skip; split_ifs] <;> simp
    · simp only [cleanReason, cleanRowStep]
      rw [if_neg (by simp [h1]), if_neg (by simp [h2]), if_neg (by simp [h3]), hd1, hd2]
      by_cases hR : jsGT (jsPlus (rget row ("建物現況格局-房"))) 100
      · simp [hR]
      · by_cases hH : jsGT (jsPlus (rget row ("建物現況格局-廳"))) 100
        · simp [hR, hH]
        · by_cases hB : jsGT (jsPlus (rget row ("建物現況格局-衛"))) 100
          · simp [hR, hH, hB]
          · simp only [hR, hH, hB, Bool.false_eq_true, if_false]
            rcases htot : toNum (rget row ("總額元")) with _ | q
            · simp
            · split_ifs <;> rfl
  obtain ⟨tl, ht1, ht2, ht3, hred⟩ := hred
  have c1 : cleanReason row = some Reason.roomsTooLarge ↔
      jsGT (jsPlus (rget row ("建物現況格局-房"))) 100 = true := by
    rw [hred]
    by_cases hR : jsGT (jsPlus (rget row ("建物現況格局-房"))) 100
    · simp [hR]
    · by_cases hH : jsGT (jsPlus (rget row ("建物現況格局-廳"))) 100
      · simp [hR, hH]
      · by_cases hB : jsGT (jsPlus (rget row ("建物現況格局-衛"))) 100
        · simp [hR, hH, hB]
        · simp [hR, hH, hB, ht1]
  have c2 : jsGT (jsPlus (rget row ("建物現況格局-房"))) 100 = false →
      (cleanReason row = some Reason.hallsTooLarge ↔
        jsGT (jsPlus (rget row ("建物現況格局-廳"))) 100 = true) := by
    intro hR
    rw [hred]
    by_cases hH : jsGT (jsPlus (rget row ("建物現況格局-廳"))) 100
    · simp [hR, hH]
    · by_cases hB : jsGT (jsPlus (rget row ("建物現況格局-衛"))) 100
      · simp [hR, hH, hB]
      · simp [hR, hH, hB, ht2]
  have c3 : jsGT (jsPlus (rget row ("建物現況格局-房"))) 100 = false →
      jsGT (jsPlus (rget row ("建物現況格局-廳"))) 100 = false →
      (cleanReason row = some Reason.bathsTooLarge ↔
        jsGT (jsPlus (rget row ("建物現況格局-衛"))) 100 = true) := by
    intro hR hH
    rw [hred]
    by_cases hB : jsGT (jsPlus (rget row ("建物現況格局-衛"))) 100
    · simp [hR, hH, hB]
    · simp [hR, hH, hB, ht3]
  refine ⟨c1, c2, c3, ?_, ?_, ?_⟩
  · intro hnan hcon
    have hgt : jsGT (jsPlus (rget row ("建物現況格局-房"))) 100 = false := by
      rw [hnan]; rfl
    rw [c1, hgt] at hcon
    exact absurd hcon (by simp)
  · intro hnan
    have hgt : jsGT (jsPlus (rget row ("建物現況格局-廳"))) 100 = false := by
      rw [hnan]; rfl
    rw [hred]
    by_cases hR : jsGT (jsPlus (rget row ("建物現況格局-房"))) 100
    · simp [hR]
    · by_cases hB : jsGT (jsPlus (rget row ("建物現況格局-衛"))) 100
      · simp [hR, hgt, hB]
      · simp [hR, hgt, hB, ht2]
  · intro hnan
    have hgt : jsGT (jsPlus (rget row ("建物現況格局-衛"))) 100 = false := by
      rw [hnan]; rfl
    rw [hred]
    by_cases hR : jsGT (jsPlus (rget row ("建物現況格局-房"))) 100
    · simp [hR]
    · by_cases hH : jsGT (jsPlus (rget row ("建物現況格局-廳"))) 100
      · simp [hR, hH]
      · simp [hR, hH, hgt, ht3]

/-- A row whose layout counts are non-numeric text and which passes the
guards preceding the layout checks. -/
def rowC10 : RawRow :=
  [(("主要用途"), ("住宅")), (("交易標的"), ("建物")), (("車位類別"), ""),
   (("租賃筆棟數"), ("土地:1 建物:1")), (("租賃層次"), ("5層")),
   (("主要建材"), ("加強磚造")), (("單價元平方公尺"), ("300000")),
   (("建築完成年月"), ("0741015")), (("租賃年月日"), ("1130601")),
   (("建物現況格局-房"), ("套房")), (("建物現況格局-廳"), ("一")),
   (("建物現況格局-衛"), ("x")), (("總額元"), ("25000"))]

/-! ## C2: equipment vocabulary closure -/

/-- The field names of an output row, in order. -/
def keysOf (o : ORow) : List String := o.map Prod.fst

/-- Whether a field name is an equipment-flag column (carries the equipment
prefix). -/
def startsWithEquip (k : String) : Bool := (("附屬設備-")).data.isPrefixOf k.data

/-- No field of the row is an equipment-flag column. -/
def NoEquipKeys (o : ORow) : Prop := ∀ x ∈ keysOf o, startsWithEquip x = false

theorem keys_jset_mem (o : ORow) (k x : String) (v : JsVal) :
    x ∈ keysOf (jset o k v) → x ∈ keysOf o ∨ x = k := by
  induction o with
  | nil => simp [jset, keysOf]
  | cons p t ih =>
    by_cases hp : p.1 = k
    · rw [show jset (p :: t) k v = (k, v) :: t from by simp [jset, hp]]
      intro hx
      rcases (by simpa [keysOf] using hx : x = k ∨ x ∈ keysOf t) with h | h
      · exact Or.inr h
      · exact Or.inl (by simp [keysOf]; exact Or.inr (by simpa [keysOf] using h))
    · rw [show jset (p :: t) k v = p :: jset t k v from by simp [jset, hp]]
      intro hx
      rcases (by simpa [keysOf] using hx : x = p.1 ∨ x ∈ keysOf (jset t k v)) with h | h
      · exact Or.inl (by simp [keysOf, h])
      · rcases ih h with h2 | h2
        · exact Or.inl (by simp [keysOf] at h2 ⊢; exact Or.inr h2)
        · exact Or.inr h2

theorem jget_some_mem_keys (o : ORow) (k : String) (v : JsVal)
    (h : jget o k = some v) : k ∈ keysOf o := by
  induction o with
  | nil => simp [jget] at h
  | cons p t ih =>
    by_cases hp : p.1 = k
    · simp [keysOf, hp.symm]
    · rw [show jget (p :: t) k = jget t k from by simp [jget, hp]] at h
      simp [keysOf] at ih ⊢
      exact Or.inr (ih h)

theorem jset_eq_append (o : ORow) (k : String) (v : JsVal)
    (h : jget o k = none) : jset o k v = o ++ [(k, v)] := by
  induction o with
  | nil => simp [jset]
  | cons p t ih =>
    by_cases hp : p.1 = k
    · rw [show jget (p :: t) k = some p.2 from by simp [jget, hp]] at h
      cases h
    · rw [show jget (p :: t) k = jget t k from by simp [jget, hp]] at h
      rw [show jset (p :: t) k v = p :: jset t k v from by simp [jset, hp], ih h]
      simp

theorem jget_append_none (o : ORow) (k k' : String) (v : JsVal)
    (h : jget o k' = none) (hk : k' ≠ k) : jget (o ++ [(k, v)]) k' = none := by
  induction o with
  | nil =>
    have h2 : ¬ (k = k') := fun he => hk he.symm
    simp [jget, h2]
  | cons p t ih =>
    by_cases hp : p.1 = k'
    · rw [show jget (p :: t) k' = some p.2 from by simp [jget, hp]] at h
      cases h
    · rw [show jget (p :: t) k' = jget t k' from by simp [jget, hp]] at h
      simpa [jget, hp] using ih h

theorem str_append_inj (p a b : String) (h : p ++ a = p ++ b) : a = b := by
  have hd : p.data ++ a.data = p.data ++ b.data := congrArg String.data h
  have h2 : a.data = b.data := List.append_cancel_left hd
  cases a
  cases b
  cases h2
  rfl

theorem isPrefixOf_append_self (l m : List Char) : l.isPrefixOf (l ++ m) = true := by
  induction l with
  | nil => simp [List.isPrefixOf]
  | cons c cs ih => simpa [List.isPrefixOf] using ih

theorem startsWithEquip_append (e : String) :
    startsWithEquip (("附屬設備-") ++ e) = true := by
  have : ((("附屬設備-") ++ e : String)).data = (("附屬設備-")).data ++ e.data := rfl
  rw [startsWithEquip, this]
  exact isPrefixOf_append_self _ _

theorem NoEquip_nil : NoEquipKeys [] := by
  intro x hx
  simp [keysOf] at hx

theorem NoEquip_jset (k : String) (v : JsVal) (hk : startsWithEquip k = false)
    {o : ORow} (hP : NoEquipKeys o) : NoEquipKeys (jset o k v) := by
  intro x hx
  rcases keys_jset_mem o k x v hx with h | rfl
  · exact hP x h
  · exact hk

theorem NoEquip_keyfold (ks : List String) (f : String → JsVal)
    (hk : ∀ k ∈ ks, startsWithEquip k = false) :
    ∀ {o : ORow}, NoEquipKeys o →
      NoEquipKeys (ks.foldl (fun o k => jset o k (f k)) o) := by
  induction ks with
  | nil => intro o hP; simpa using hP
  | cons k ks ih =>
    intro o hP
    rw [List.foldl_cons]
    exact ih (fun k' hk' => hk k' (List.mem_cons_of_mem _ hk'))
      (NoEquip_jset k (f k) (hk k (List.mem_cons_self _ _)) hP)

theorem NoEquip_copyfold (r : RawRow)
    (hr : ∀ kv ∈ r, startsWithEquip kv.1 = false) :
    ∀ {o : ORow}, NoEquipKeys o →
      NoEquipKeys (r.foldl
        (fun o kv =>
          if kv.1 ∈ DROP_COLS then o
          else if hasKey o kv.1 then o
          else jset o kv.1 (.str kv.2)) o) := by
  induction r with
  | nil => intro o hP; simpa using hP
  | cons kv t ih =>
    intro o hP
    rw [List.foldl_cons]
    refine ih (fun kv' hkv' => hr kv' (List.mem_cons_of_mem _ hkv')) ?_
    by_cases h1 : kv.1 ∈ DROP_COLS
    · simpa [h1] using hP
    · by_cases h2 : hasKey o kv.1
      · simpa [h1, h2] using hP
      · simpa [h1, h2] using
          NoEquip_jset kv.1 (.str kv.2) (hr kv (List.mem_cons_self _ _)) hP

theorem equip_fold_keys_filter (own : List String) :
    ∀ (es : List String) (o : ORow), es.Nodup →
      (∀ e ∈ es, jget o (("附屬設備-") ++ e) = none) →
      (keysOf (es.foldl
        (fun o eq => jset o (("附屬設備-") ++ eq)
          (JsVal.num (.fin (if eq ∈ own then 1 else 0)))) o)).filter startsWithEquip =
        (keysOf o).filter startsWithEquip ++
          es.map (fun e => ("附屬設備-") ++ e) := by
  intro es
  induction es with
  | nil => intro o _ _; simp
  | cons e es ih =>
    intro o hnd hf
    rw [List.foldl_cons, jset_eq_append _ _ _ (hf e (List.mem_cons_self _ _))]
    rw [ih (o ++ [((("附屬設備-") ++ e),
        JsVal.num (.fin (if e ∈ own then 1 else 0)))]) (List.nodup_cons.mp hnd).2 ?_]
    · simp [keysOf, List.filter_append, startsWithEquip_append]
    · intro e' he'
      have hne : (("附屬設備-") ++ e' : String) ≠ (("附屬設備-") ++ e) := by
        intro hcon
        exact (List.nodup_cons.mp hnd).1 ((str_append_inj _ _ _ hcon) ▸ he')
      exact jget_append_none _ _ _ _ (hf e' (List.mem_cons_of_mem _ he')) hne

theorem filter_keys_eq_nil {o : ORow} (hP : NoEquipKeys o) :
    (keysOf o).filter startsWithEquip = [] := by
  induction o with
  | nil => simp [keysOf]
  | cons p t ih =>
    have h1 : startsWithEquip p.1 = false := hP p.1 (by simp [keysOf])
    have h2 : NoEquipKeys t := fun x hx => hP x (by simp [keysOf] at hx ⊢; exact Or.inr hx)
    simpa [keysOf, h1] using ih h2

theorem mem_insertNew (a : List String) (t x : String) :
    x ∈ insertNew a t ↔ x ∈ a ∨ x = t := by
  unfold insertNew
  by_cases h : t ∈ a
  · rw [if_pos h]
    constructor
    · exact Or.inl
    · rintro (hx | rfl)
      · exact hx
      · exact h
  · rw [if_neg h]
    simp

theorem nodup_insertNew (a : List String) (t : String) (h : a.Nodup) :
    (insertNew a t).Nodup := by
  unfold insertNew
  by_cases hm : t ∈ a
  · simpa [hm] using h
  · simp [hm, List.nodup_append, h]

theorem mem_foldl_insertNew (l : List String) :
    ∀ (a : List String) (x : String), x ∈ l.foldl insertNew a ↔ x ∈ a ∨ x ∈ l := by
  induction l with
  | nil => intro a x; simp
  | cons h t ih =>
    intro a x
    rw [List.foldl_cons, ih, mem_insertNew]
    simp [or_assoc]

theorem nodup_foldl_insertNew (l : List String) :
    ∀ (a : List String), a.Nodup → (l.foldl insertNew a).Nodup := by
  induction l with
  | nil => intro a h; simpa using h
  | cons h t ih => intro a ha; exact ih _ (nodup_insertNew a h ha)

theorem mem_equipVocab_aux (data : List RawRow) :
    ∀ (acc : List String) (x : String),
      x ∈ data.foldl
        (fun acc r => (equipTokens (rgetD r ("附屬設備") "")).foldl insertNew acc) acc ↔
      x ∈ acc ∨ ∃ r ∈ data, x ∈ equipTokens (rgetD r ("附屬設備") "") := by
  induction data with
  | nil => intro acc x; simp
  | cons r t ih =>
    intro acc x
    rw [List.foldl_cons, ih, mem_foldl_insertNew]
    constructor
    · rintro ((h | h) | ⟨r', hr', h⟩)
      · exact Or.inl h
      · exact Or.inr ⟨r, List.mem_cons_self _ _, h⟩
      · exact Or.inr ⟨r', List.mem_cons_of_mem _ hr', h⟩
    · rintro (h | ⟨r', hr', h⟩)
      · exact Or.inl (Or.inl h)
      · rcases List.mem_cons.mp hr' with rfl | hr2
        · exact Or.inl (Or.inr h)
        · exact Or.inr ⟨r', hr2, h⟩

theorem nodup_equipVocab (data : List RawRow) : (equipVocab data).Nodup := by
  unfold equipVocab
  suffices h : ∀ (acc : List String), acc.Nodup →
      (data.foldl
        (fun acc r => (equipTokens (rgetD r ("附屬設備") "")).foldl insertNew acc)
        acc).Nodup by
    exact h [] List.nodup_nil
  induction data with
  | nil => intro acc h; simpa using h
  | cons r t ih =>
    intro acc ha
    rw [List.foldl_cons]
    exact ih _ (nodup_foldl_insertNew _ _ ha)

/-- Keys after the equipment expansion applied to a row without equipment
columns: exactly the prefixed vocabulary. -/
theorem keys_after_transform (own vocab : List String) (o : ORow)
    (hv : vocab.Nodup) (hP : NoEquipKeys o) :
    (keysOf (vocab.foldl (fun o eq => jset o (("附屬設備-") ++ eq)
      (JsVal.num (.fin (if eq ∈ own then 1 else 0)))) o)).filter startsWithEquip =
      vocab.map (fun e => ("附屬設備-") ++ e) := by
  rw [equip_fold_keys_filter own vocab o hv ?_]
  · rw [filter_keys_eq_nil hP]
    simp
  · intro e he
    cases hj : jget o (("附屬設備-") ++ e) with
    | none => rfl
    | some v =>
      have hmem := hP _ (jget_some_mem_keys _ _ _ hj)
      rw [startsWithEquip_append] at hmem
      cases hmem

set_option maxHeartbeats 800000

/-- The equipment-column shape of one admitted transform: the equipment-flag
columns of the output are exactly the vocabulary, prefixed, in order. -/
theorem cleanRowStep_keys (vocab : List String) (r : RawRow) (out : ORow)
    (hok : cleanRowStep vocab r = .ok out)
    (hr : ∀ kv ∈ r, startsWithEquip kv.1 = false)
    (hv : vocab.Nodup) :
    (keysOf out).filter startsWithEquip =
      vocab.map (fun e => ("附屬設備-") ++ e) := by
  simp only [cleanRowStep] at hok
  by_cases g1 : purposeRe (rgetD r ("主要用途") "") = true
  swap
  · rw [if_pos g1] at hok
    exact Except.noConfusion hok
  rw [if_neg (not_not_intro g1)] at hok
  by_cases g2 : containsSub (rgetD r ("交易標的") "") ("房地") = true
  · rw [if_pos g2] at hok
    exact Except.noConfusion hok
  rw [if_neg g2] at hok
  by_cases g3 : (jqEq (parseTransRatio (rget r ("租賃筆棟數"))).land 0 &&
      jqEq (parseTransRatio (rget r ("租賃筆棟數"))).building 0) = true
  · rw [if_pos g3] at hok
    exact Except.noConfusion hok
  rw [if_neg g3] at hok
  split at hok
  · exact Except.noConfusion hok
  split at hok
  · exact Except.noConfusion hok
  by_cases g4 : jsGT (jsPlus (rget r ("建物現況格局-房"))) 100 = true
  · rw [if_pos g4] at hok
    exact Except.noConfusion hok
  rw [if_neg g4] at hok
  by_cases g5 : jsGT (jsPlus (rget r ("建物現況格局-廳"))) 100 = true
  · rw [if_pos g5] at hok
    exact Except.noConfusion hok
  rw [if_neg g5] at hok
  by_cases g6 : jsGT (jsPlus (rget r ("建物現況格局-衛"))) 100 = true
  · rw [if_pos g6] at hok
    exact Except.noConfusion hok
  rw [if_neg g6] at hok
  split at hok
  · exact Except.noConfusion hok
  by_cases g7 : rget r ("租賃層次") = some ("見其他登記事項")
  · rw [if_pos g7] at hok
    exact Except.noConfusion hok
  rw [if_neg g7] at hok
  by_cases g8 : rget r ("主要建材") = some ("見其他登記事項") ∨
      rget r ("主要建材") = some ("見使用執照")
  · rw [if_pos g8] at hok
    exact Except.noConfusion hok
  rw [if_neg g8] at hok
  by_cases g9 : rget r ("單價元平方公尺") = some ""
  · rw [if_pos g9] at hok
    exact Except.noConfusion hok
  rw [if_neg g9] at hok
  by_cases g10 : ¬ (rget r ("車位類別") = some "")
  · rw [if_pos g10] at hok
    exact Except.noConfusion hok
  rw [if_neg g10] at hok
  injection hok with hh
  subst hh
  unfold transformRow
  apply keys_after_transform _ _ _ hv
  apply NoEquip_copyfold r hr
  apply NoEquip_jset _ _ (by decide)
  apply NoEquip_keyfold _ _ (by decide)
  apply NoEquip_keyfold _ _ (by decide)
  apply NoEquip_jset _ _ (by decide)
  apply NoEquip_jset _ _ (by decide)
  apply NoEquip_jset _ _ (by decide)
  apply NoEquip_jset _ _ (by decide)
  apply NoEquip_jset _ _ (by decide)
  apply NoEquip_jset _ _ (by decide)
  apply NoEquip_jset _ _ (by decide)
  apply NoEquip_jset _ _ (by decide)
  apply NoEquip_jset _ _ (by decide)
  apply NoEquip_jset _ _ (by decide)
  apply NoEquip_jset _ _ (by decide)
  apply NoEquip_jset _ _ (by decide)
  apply NoEquip_jset _ _ (by decide)
  apply NoEquip_jset _ _ (by decide)
  apply NoEquip_jset _ _ (by decide)
  apply NoEquip_jset _ _ (by decide)
  exact NoEquip_nil

set_option maxHeartbeats 200000

/-- C2: every CleanRecord of one batch carries the same set of
equipment-flag columns: exactly the batch vocabulary, prefixed, in
first-occurrence order — and that vocabulary is the union of the trimmed
non-empty split tokens over the raw equipment field of every row of the
batch, including rows the admission filter later rejects, because the
vocabulary pre-pass runs over the full raw corpus before any filtering. -/
theorem C2_equipVocabClosure (data : List RawRow) (out : ORow)
    (hm : out ∈ cleanedRows data)
    (hks : ∀ r ∈ data, ∀ kv ∈ r, startsWithEquip kv.1 = false) :
    (keysOf out).filter startsWithEquip =
      (equipVocab data).map (fun e => ("附屬設備-") ++ e) ∧
    (∀ t, t ∈ equipVocab data ↔
      ∃ r ∈ data, t ∈ equipTokens (rgetD r ("附屬設備") "")) := by
  constructor
  · unfold cleanedRows at hm
    rw [List.mem_filterMap] at hm
    obtain ⟨r, hr, hro⟩ := hm
    have hok : cleanRowStep (equipVocab data) r = .ok out := by
      cases hcs : cleanRowStep (equipVocab data) r with
      | error e => rw [hcs] at hro; simp [Except.toOption] at hro
      | ok o =>
        rw [hcs] at hro
        simp only [Except.toOption, Option.some.injEq] at hro
        rw [hro]
    exact cleanRowStep_keys _ _ _ hok (hks r hr) (nodup_equipVocab data)
  · intro t
    unfold equipVocab
    rw [mem_equipVocab_aux data [] t]
    simp

/-- An admitted row with two equipment tokens. -/
def rowE1 : RawRow :=
  [(("主要用途"), ("住宅")), (("交易標的"), ("建物")), (("車位類別"), ""),
   (("租賃筆棟數"), ("土地:1 建物:1")), (("租賃層次"), ("5層")),
   (("主要建材"), ("加強磚造")), (("單價元平方公尺"), ("300000")),
   (("建築完成年月"), ("0741015")), (("租賃年月日"), ("1130601")),
   (("建物現況格局-房"), ("2")), (("建物現況格局-廳"), ("1")),
   (("建物現況格局-衛"), ("1")), (("總額元"), ("25000")),
   (("附屬設備"), ("冷氣、電視"))]

/-- A row rejected for usage mismatch, still contributing an equipment
token to the batch vocabulary. -/
def rowE2 : RawRow := [(("主要用途"), ("工廠")), (("附屬設備"), ("熱水器"))]

def dataC2 : List RawRow := [rowE1, rowE2]

def outC2 : ORow := (cleanedRows dataC2).headD []

/-- Witness for C2 on a two-row batch whose second row is rejected: the
admitted record still carries the rejected row's equipment column. -/
theorem C2_equipVocabClosure_witness :
    (outC2 ∈ cleanedRows dataC2 ∧
      (∀ r ∈ dataC2, ∀ kv ∈ r, startsWithEquip kv.1 = false) ∧
      cleanReason rowE2 = some Reason.usageMismatch ∧
      equipVocab dataC2 = [("冷氣"), ("電視"), ("熱水器")]) ∧
    ((keysOf outC2).filter startsWithEquip =
      (equipVocab dataC2).map (fun e => ("附屬設備-") ++ e) ∧
    (∀ t, t ∈ equipVocab dataC2 ↔
      ∃ r ∈ dataC2, t ∈ equipTokens (rgetD r ("附屬設備") ""))) :=
  ⟨⟨by decide, by decide, by decide, by decide⟩,
   C2_equipVocabClosure dataC2 outC2 (by decide) (by decide)⟩

/-! ## C8 and C9: the proximity enrichment join -/

theorem jget_renameCol_other (row : ORow) (oldK newK k : String)
    (h1 : k ≠ oldK) (h2 : k ≠ newK) :
    jget (renameCol row oldK newK) k = jget row k := by
  unfold renameCol
  split
  · rw [jget_jdel, if_neg h1, jget_jset, if_neg h2]
  · rfl

theorem jget_renameCol_new (row : ORow) (oldK newK : String) (v : JsVal)
    (hold : jget row oldK = some v) (hne : newK ≠ oldK) :
    jget (renameCol row oldK newK) newK = some v := by
  unfold renameCol
  rw [if_pos (by rw [hasKey_isSome, hold]; rfl)]
  rw [jget_jdel, if_neg hne, jget_jset, if_pos rfl, hold]
  rfl

/-- A cleaned example row whose identifier matches the secondary row. -/
def rentC9 : ORow := [(("編號"), .str ("RPA001")), (("總額元"), .num (.fin 25000))]

/-- A cleaned example row with no secondary match. -/
def rentC8 : ORow := [(("編號"), .str ("RPZ009")), (("總額元"), .num (.fin 30000))]

/-- A secondary proximity row with exactly two line flags set to one. -/
def mrtC9 : ORow :=
  [(("編號"), .str ("RPA001")), (("x"), .str ("301000.1")), (("y"), .str ("2770000.2")),
   (("最近捷運站"), .str ("台北車站")), (("捷運站距離.公尺."), .str ("120")),
   (("文湖線"), .str ("0")), (("淡水信義線"), .str ("1")), (("新北投支線"), .str ("0")),
   (("松山新店線"), .str ""), (("小碧潭支線"), .str ("0")), (("中和新蘆線"), .str ("0")),
   (("板南線"), .str ("1")), (("環狀線"), .str ("0")),
   (("通車日期"), .str ("1996-03-28")), (("附近建物單位成交均價"), .str ("652000"))]

/-- The flag value the join copies for a given cleaned row and line
column. -/
def copiedFlag (m : List (String × ORow)) (rent : ORow) (c : String) : JsVal :=
  copyVal (mfind m (trimS (jsToStr (jget rent ("編號"))))) c

/-- The active lines of a cleaned row under a lookup map: the line columns
whose copied flag trims to non-empty text whose Number coercion equals
one, in the fixed enumeration order. -/
def activeOf (m : List (String × ORow)) (rent : ORow) : List String :=
  lineCols.filter (fun c => lineActive (coalStr (some (copiedFlag m rent c))))

theorem enrich_line_get (m : List (String × ORow)) (rent : ORow) :
    ∀ c ∈ lineCols,
      jget (mrtCols.foldl
        (fun ro c => jset ro c
          (copyVal (mfind m (trimS (jsToStr (jget rent ("編號"))))) c)) rent) c =
      some (copiedFlag m rent c) := by
  intro c hc
  rcases (by simpa [lineCols] using hc :
      c = ("文湖線") ∨ c = ("淡水信義線") ∨ c = ("新北投支線") ∨ c = ("松山新店線") ∨
      c = ("小碧潭支線") ∨ c = ("中和新蘆線") ∨ c = ("板南線") ∨ c = ("環狀線"))
    with rfl | rfl | rfl | rfl | rfl | rfl | rfl | rfl <;>
  simp [mrtCols, lineCols, copiedFlag, jget_jset]

/-- C9: the derived line aggregate of every enriched record: the 捷運線
value is the comma join, in the fixed eight-line order, of exactly those
line names whose copied flag parses as the number one, and 轉乘站 is one
exactly when at least two lines are active; on the concrete example with
two flags set and six unset, both derived values are as the claim states. -/
theorem C9_activeLines :
    (∀ (m : List (String × ORow)) (rent : ORow),
      jget (enrichRow m rent) ("捷運線") =
        some (.str (String.intercalate (",") (activeOf m rent))) ∧
      jget (enrichRow m rent) ("轉乘站") =
        some (.num (.fin (if 2 ≤ (activeOf m rent).length then 1 else 0)))) ∧
    jget (enrichRow (buildMrtMap [mrtC9]) rentC9) ("捷運線") =
      some (.str ("淡水信義線,板南線")) ∧
    jget (enrichRow (buildMrtMap [mrtC9]) rentC9) ("轉乘站") =
      some (.num (.fin 1)) := by
  refine ⟨?_, by decide, by decide⟩
  intro m rent
  simp only [enrichRow]
  have hactive :
      (lineCols.filter (fun c => lineActive (coalStr (jget
        (mrtCols.foldl (fun ro c => jset ro c
          (copyVal (mfind m (trimS (jsToStr (jget rent ("編號"))))) c)) rent) c)))) =
      activeOf m rent := by
    refine List.filter_congr ?_
    intro c hc
    rw [enrich_line_get m rent c hc]
  rw [hactive]
  constructor
  · rw [jget_renameCol_other _ _ _ _ (by decide) (by decide),
      jget_renameCol_other _ _ _ _ (by decide) (by decide),
      jget_renameCol_other _ _ _ _ (by decide) (by decide),
      jget_jset, if_neg (by decide), jget_jset, if_pos rfl]
  · rw [jget_renameCol_other _ _ _ _ (by decide) (by decide),
      jget_renameCol_other _ _ _ _ (by decide) (by decide),
      jget_renameCol_other _ _ _ _ (by decide) (by decide),
      jget_jset, if_pos rfl]

/-- The final column names filled by the join (after the renames). -/
def joinedCols : List String :=
  [("座標 x"), ("座標 y"), ("最近捷運站"), ("捷運站距離(公尺)")] ++ lineCols ++
  [("通車日期"), ("附近建物單位成交均價")]

theorem enrich_nomatch_get (m : List (String × ORow)) (rent : ORow)
    (hnone : mfind m (trimS (jsToStr (jget rent ("編號")))) = none) :
    ∀ c ∈ joinedCols, jget (enrichRow m rent) c = some (.str "") := by
  have hfold : ∀ c ∈ mrtCols,
      jget (mrtCols.foldl (fun ro c => jset ro c (copyVal none c)) rent) c =
        some (JsVal.str "") := by
    intro c hc
    rcases (by simpa [mrtCols, lineCols] using hc :
        c = ("x") ∨ c = ("y") ∨ c = ("最近捷運站") ∨ c = ("捷運站距離.公尺.") ∨
        c = ("文湖線") ∨ c = ("淡水信義線") ∨ c = ("新北投支線") ∨ c = ("松山新店線") ∨
        c = ("小碧潭支線") ∨ c = ("中和新蘆線") ∨ c = ("板南線") ∨ c = ("環狀線") ∨
        c = ("通車日期") ∨ c = ("附近建物單位成交均價"))
      with rfl | rfl | rfl | rfl | rfl | rfl | rfl | rfl | rfl | rfl | rfl | rfl | rfl | rfl <;>
    simp [mrtCols, lineCols, copyVal, jget_jset]
  intro c hc
  simp only [enrichRow]
  rw [hnone]
  rcases (by simpa [joinedCols, lineCols] using hc :
      c = ("座標 x") ∨ c = ("座標 y") ∨ c = ("最近捷運站") ∨ c = ("捷運站距離(公尺)") ∨
      c = ("文湖線") ∨ c = ("淡水信義線") ∨ c = ("新北投支線") ∨ c = ("松山新店線") ∨
      c = ("小碧潭支線") ∨ c = ("中和新蘆線") ∨ c = ("板南線") ∨ c = ("環狀線") ∨
      c = ("通車日期") ∨ c = ("附近建物單位成交均價"))
    with rfl | rfl | rfl | rfl | rfl | rfl | rfl | rfl | rfl | rfl | rfl | rfl | rfl | rfl
  · rw [jget_renameCol_other _ _ _ _ (by decide) (by decide),
      jget_renameCol_other _ _ _ _ (by decide) (by decide)]
    refine jget_renameCol_new _ _ _ (.str "") ?_ (by decide)
    rw [jget_jset, if_neg (by decide), jget_jset, if_neg (by decide)]
    exact hfold ("x") (by decide)
  · rw [jget_renameCol_other _ _ _ _ (by decide) (by decide)]
    refine jget_renameCol_new _ _ _ (.str "") ?_ (by decide)
    rw [jget_renameCol_other _ _ _ _ (by decide) (by decide)]
    rw [jget_jset, if_neg (by decide), jget_jset, if_neg (by decide)]
    exact hfold ("y") (by decide)
  · rw [jget_renameCol_other _ _ _ _ (by decide) (by decide),
      jget_renameCol_other _ _ _ _ (by decide) (by decide),
      jget_renameCol_other _ _ _ _ (by decide) (by decide),
      jget_jset, if_neg (by decide), jget_jset, if_neg (by decide)]
    exact hfold ("最近捷運站") (by decide)
  · refine jget_renameCol_new _ _ _ (.str "") ?_ (by decide)
    rw [jget_renameCol_other _ _ _ _ (by decide) (by decide),
      jget_renameCol_other _ _ _ _ (by decide) (by decide)]
    rw [jget_jset, if_neg (by decide), jget_jset, if_neg (by decide)]
    exact hfold ("捷運站距離.公尺.") (by decide)
  · rw [jget_renameCol_other _ _ _ _ (by decide) (by decide),
      jget_renameCol_other _ _ _ _ (by decide) (by decide),
      jget_renameCol_other _ _ _ _ (by decide) (by decide),
      jget_jset, if_neg (by decide), jget_jset, if_neg (by decide)]
    exact hfold ("文湖線") (by decide)
  · rw [jget_renameCol_other _ _ _ _ (by decide) (by decide),
      jget_renameCol_other _ _ _ _ (by decide) (by decide),
      jget_renameCol_other _ _ _ _ (by decide) (by decide),
      jget_jset, if_neg (by decide), jget_jset, if_neg (by decide)]
    exact hfold ("淡水信義線") (by decide)
  · rw [jget_renameCol_other _ _ _ _ (by decide) (by decide),
      jget_renameCol_other _ _ _ _ (by decide) (by decide),
      jget_renameCol_other _ _ _ _ (by decide) (by decide),
      jget_jset, if_neg (by decide), jget_jset, if_neg (by decide)]
    exact hfold ("新北投支線") (by decide)
  · rw [jget_renameCol_other _ _ _ _ (by decide) (by decide),
      jget_renameCol_other _ _ _ _ (by decide) (by decide),
      jget_renameCol_other _ _ _ _ (by decide) (by decide),
      jget_jset, if_neg (by decide), jget_jset, if_neg (by decide)]
    exact hfold ("松山新店線") (by decide)
  · rw [jget_renameCol_other _ _ _ _ (by decide) (by decide),
      jget_renameCol_other _ _ _ _ (by decide) (by decide),
      jget_renameCol_other _ _ _ _ (by decide) (by decide),
      jget_jset, if_neg (by decide), jget_jset, if_neg (by decide)]
    exact hfold ("小碧潭支線") (by decide)
  · rw [jget_renameCol_other _ _ _ _ (by decide) (by decide),
      jget_renameCol_other _ _ _ _ (by decide) (by decide),
      jget_renameCol_other _ _ _ _ (by decide) (by decide),
      jget_jset, if_neg (by decide), jget_jset, if_neg (by decide)]
    exact hfold ("中和新蘆線") (by decide)
  · rw [jget_renameCol_other _ _ _ _ (by decide) (by decide),
      jget_renameCol_other _ _ _ _ (by decide) (by decide),
      jget_renameCol_other _ _ _ _ (by decide) (by decide),
      jget_jset, if_neg (by decide), jget_jset, if_neg (by decide)]
    exact hfold ("板南線") (by decide)
  · rw [jget_renameCol_other _ _ _ _ (by decide) (by decide),
      jget_renameCol_other _ _ _ _ (by decide) (by decide),
      jget_renameCol_other _ _ _ _ (by decide) (by decide),
      jget_jset, if_neg (by decide), jget_jset, if_neg (by decide)]
    exact hfold ("環狀線") (by decide)
  · rw [jget_renameCol_other _ _ _ _ (by decide) (by decide),
      jget_renameCol_other _ _ _ _ (by decide) (by decide),
      jget_renameCol_other _ _ _ _ (by decide) (by decide),
      jget_jset, if_neg (by decide), jget_jset, if_neg (by decide)]
    exact hfold ("通車日期") (by decide)
  · rw [jget_renameCol_other _ _ _ _ (by decide) (by decide),
      jget_renameCol_other _ _ _ _ (by decide) (by decide),
      jget_renameCol_other _ _ _ _ (by decide) (by decide),
      jget_jset, if_neg (by decide), jget_jset, if_neg (by decide)]
    exact hfold ("附近建物單位成交均價") (by decide)

/-- C8: every record of the final merge output has a non-empty (trimmed)
reference unit price and no longer contains the join-key column; and a
cleaned row whose trimmed identifier has no match in the secondary lookup
gets every joined column filled with the empty string and is then removed
by the required-price filter. -/
theorem C8_joinInvariants (rentRows mrtRows : List ORow) :
    (∀ r ∈ mergeOutput rentRows mrtRows,
        trimS (jsToStr (jget r ("附近建物單位成交均價"))) ≠ "" ∧
        jget r ("編號") = none) ∧
    (∀ rent ∈ rentRows,
        mfind (buildMrtMap mrtRows) (trimS (jsToStr (jget rent ("編號")))) = none →
        (∀ c ∈ joinedCols,
          jget (enrichRow (buildMrtMap mrtRows) rent) c = some (.str "")) ∧
        priceKeep (enrichRow (buildMrtMap mrtRows) rent) = false) := by
  constructor
  · intro r hr
    unfold mergeOutput at hr
    simp only [List.mem_map] at hr
    obtain ⟨r', hr', rfl⟩ := hr
    obtain ⟨hmem, hkeep⟩ := List.mem_filter.mp hr'
    constructor
    · rw [jget_jdel, if_neg (by decide)]
      unfold priceKeep at hkeep
      simpa using hkeep
    · rw [jget_jdel, if_pos rfl]
  · intro rent hrent hnone
    have hget := enrich_nomatch_get (buildMrtMap mrtRows) rent hnone
    refine ⟨hget, ?_⟩
    have hp := hget ("附近建物單位成交均價") (by decide)
    unfold priceKeep
    rw [hp]
    decide

/-- The first record of the merge output of the two-row example. -/
def outC8 : ORow := (mergeOutput [rentC9, rentC8] [mrtC9]).headD []

/-- Witness for C8: in a two-row example the unmatched row is filled with
empty strings and dropped, and the surviving output row carries a price and
no join key. -/
theorem C8_joinInvariants_witness :
    (outC8 ∈ mergeOutput [rentC9, rentC8] [mrtC9] ∧
     rentC8 ∈ [rentC9, rentC8] ∧
     mfind (buildMrtMap [mrtC9]) (trimS (jsToStr (jget rentC8 ("編號")))) = none) ∧
    (trimS (jsToStr (jget outC8 ("附近建物單位成交均價"))) ≠ "" ∧
     jget outC8 ("編號") = none) ∧
    ((∀ c ∈ joinedCols,
        jget (enrichRow (buildMrtMap [mrtC9]) rentC8) c = some (.str "")) ∧
     priceKeep (enrichRow (buildMrtMap [mrtC9]) rentC8) = false) :=
  ⟨⟨by decide, by decide, by decide⟩,
   (C8_joinInvariants [rentC9, rentC8] [mrtC9]).1 outC8 (by decide),
   (C8_joinInvariants [rentC9, rentC8] [mrtC9]).2 rentC8 (by decide) (by decide)⟩

/-- Witness for C10: non-numeric layout text coerces to NaN and the record
is not rejected for layout size. -/
theorem C10_layoutGuards_witness :
    (purposeRe (rgetD rowC10 ("主要用途") "") = true ∧
     containsSub (rgetD rowC10 ("交易標的") "") ("房地") = false ∧
     (jqEq (parseTransRatio (rget rowC10 ("租賃筆棟數"))).land 0 &&
       jqEq (parseTransRatio (rget rowC10 ("租賃筆棟數"))).building 0) = false ∧
     (parseROC (rgetD rowC10 ("建築完成年月") "")).isSome = true ∧
     (parseROC (rgetD rowC10 ("租賃年月日") "")).isSome = true ∧
     jsPlus (rget rowC10 ("建物現況格局-房")) = JsNum.nan) ∧
    cleanReason rowC10 ≠ some Reason.roomsTooLarge :=
  ⟨by decide,
   (C10_layoutGuards rowC10 (by decide) (by decide) (by decide) (by decide)
      (by decide)).2.2.2.1 (by decide)⟩

end WC
